import Mathlib

/-!
Verification of the real-time chat server (socket layer of the repository).

The socket layer keeps four in-memory registries (connectedUsers, userSockets,
userHeartbeats, userTypingStatus) next to a SQL store holding users,
conversations and messages.  Each socket event handler is translated here into
a pure step function on an explicit state; emitted socket events are collected
as an output list.  The SQL statements appearing in the handlers are translated
into the corresponding list transformations, with the foreign-key constraints
of the messages table (conversation_id, sender_id) modelled in the insert path.
-/

namespace ChatServer

/-- Row of the users table: id, is_online, last_seen. -/
structure UserRow where
  id : Nat
  isOnline : Bool
  lastSeen : Nat
  deriving DecidableEq

/-- Row of the conversations table: id and the two participants. -/
structure Conversation where
  id : Nat
  user1 : Nat
  user2 : Nat
  deriving DecidableEq

/-- Row of the messages table. -/
structure Message where
  id : Nat
  conversationId : Nat
  senderId : Nat
  content : String
  isDelivered : Bool
  isRead : Bool
  deliveredAt : Option Nat
  readAt : Option Nat
  createdAt : Nat
  deriving DecidableEq

/-- Lookup in an association list keyed by Nat (models JS Map.get). -/
def mapGet {α : Type} (m : List (Nat × α)) (k : Nat) : Option α :=
  (m.find? (fun p => p.1 == k)).map (fun p => p.2)

/-- Insert or replace a key (models JS Map.set). -/
def mapSet {α : Type} (m : List (Nat × α)) (k : Nat) (v : α) : List (Nat × α) :=
  (k, v) :: m.filter (fun p => p.1 != k)

/-- Remove a key (models JS Map.delete). -/
def mapDelete {α : Type} (m : List (Nat × α)) (k : Nat) : List (Nat × α) :=
  m.filter (fun p => p.1 != k)

/-- Full server state: the three SQL tables plus the four in-memory maps and
the set of currently open sockets. -/
structure ServerState where
  users : List UserRow
  conversations : List Conversation
  messages : List Message
  nextMessageId : Nat
  connectedUsers : List (Nat × Nat)
  userSockets : List (Nat × Nat)
  userHeartbeats : List (Nat × Nat)
  userTypingStatus : List (Nat × (Nat × Nat))
  liveSockets : List Nat
  deriving DecidableEq

/-- Events emitted by the server to clients.  messageNewDirect models
socket.emit (to the socket the inbound event arrived on); messageNewRoom
models io.to(socketId).emit. -/
inductive Output where
  | userStatusChange (uid : Nat) (isOnline : Bool)
  | authenticated (sock : Nat)
  | conversationsUpdated (uid : Nat)
  | messageNewDirect (sock : Nat) (m : Message) (status : String)
  | messageNewRoom (room : Nat) (m : Message) (status : String)
  | messageDelivered (sock mid cid : Nat)
  | messageReadTargeted (sock cid : Nat) (mids : List Nat) (readBy : Nat)
  | messageReadBroadcast (cid uid : Nat)
  | typingRoom (room uid : Nat) (isStart : Bool)
  | userTypingStatus (sock uid cid : Nat) (isTyping : Bool)
  | messageError (sock : Nat)
  | forceDisconnect (sock : Nat)
  | conversationOpened (cid uid : Nat)
  deriving DecidableEq

/-- App states carried by the app_state_change event. -/
inductive AppState where
  | active
  | background
  | inactive
  deriving DecidableEq

/-- UPDATE users SET is_online = b, last_seen = t WHERE id = uid. -/
def setUserOnline (users : List UserRow) (uid : Nat) (b : Bool) (t : Nat) : List UserRow :=
  users.map (fun u => if u.id == uid then { u with isOnline := b, lastSeen := t } else u)

/-- UPDATE users SET last_seen = t WHERE id = uid. -/
def touchLastSeen (users : List UserRow) (uid t : Nat) : List UserRow :=
  users.map (fun u => if u.id == uid then { u with lastSeen := t } else u)

/-- SELECT is_online FROM users WHERE id = uid, coerced as in the source:
rows.length > 0 AND rows[0].is_online. -/
def dbOnline (s : ServerState) (uid : Nat) : Bool :=
  match s.users.find? (fun u => u.id == uid) with
  | some u => u.isOnline
  | none => false

/-- Whether a user row with this id exists (sender_id foreign key target). -/
def userExists (s : ServerState) (uid : Nat) : Bool :=
  s.users.any (fun u => u.id == uid)

/-- SELECT user1_id, user2_id FROM conversations WHERE id = cid (rows[0]). -/
def convFind (convs : List Conversation) (cid : Nat) : Option Conversation :=
  convs.find? (fun c => c.id == cid)

/-- Conversation lookup on the server state. -/
def convLookup (s : ServerState) (cid : Nat) : Option Conversation :=
  convFind s.conversations cid

/-- conv.user1_id === uid ? conv.user2_id : conv.user1_id. -/
def otherParticipant (c : Conversation) (uid : Nat) : Nat :=
  if c.user1 == uid then c.user2 else c.user1

/-- UPDATE messages SET is_delivered = true, delivered_at = t (applied to one row). -/
def markDelivered (t : Nat) (m : Message) : Message :=
  { m with isDelivered := true, deliveredAt := some t }

/-- UPDATE messages SET is_read = true, read_at = t (applied to one row). -/
def markRead (t : Nat) (m : Message) : Message :=
  { m with isRead := true, readAt := some t }

/-- The CASE expression of the typing fan-out query: WHEN user1 = uid THEN
user2 WHEN user2 = uid THEN user1 (NULL rows are dropped by the WHERE). -/
def targetOf (uid : Nat) (c : Conversation) : Option Nat :=
  if c.user1 == uid then some c.user2
  else if c.user2 == uid then some c.user1
  else none

/-- The SELECT of emitTypingStatusToRelevantUsers: for every conversation of
uid, the other participant. -/
def typingTargets (s : ServerState) (uid : Nat) : List Nat :=
  s.conversations.filterMap (targetOf uid)

/-- Fan-out loop of emitTypingStatusToRelevantUsers over a target list: emit
user_typing_status to every target that has an entry in connectedUsers. -/
def emitTypingList (cu : List (Nat × Nat)) (targets : List Nat) (uid cid : Nat)
    (isTyping : Bool) : List Output :=
  targets.filterMap (fun v =>
    match mapGet cu v with
    | some os => some (Output.userTypingStatus os uid cid isTyping)
    | none => none)

/-- emitTypingStatusToRelevantUsers on the server state. -/
def emitTypingStatus (s : ServerState) (uid cid : Nat) (isTyping : Bool) : List Output :=
  emitTypingList s.connectedUsers (typingTargets s uid) uid cid isTyping

/-- Predicate of the pending-messages SELECT in deliverPendingMessages:
message in a conversation uid participates in, authored by someone else,
not yet delivered. -/
def pendingFor (convs : List Conversation) (uid : Nat) (m : Message) : Bool :=
  (match convFind convs m.conversationId with
   | some c => c.user1 == uid || c.user2 == uid
   | none => false)
  && m.senderId != uid && !m.isDelivered

/-- Loop body of deliverPendingMessages: for each pending message, run the
UPDATE ... WHERE id = m.id, then notify the sender when its socket is found
in connectedUsers. -/
def replayRun (cu : List (Nat × Nat)) (t : Nat) :
    List Message → List Message → List Message × List Output
  | msgs, [] => (msgs, [])
  | msgs, m :: rest =>
    let msgs1 := msgs.map (fun x => if x.id == m.id then markDelivered t x else x)
    let r := replayRun cu t msgs1 rest
    match mapGet cu m.senderId with
    | some ss => (r.1, Output.messageDelivered ss m.id m.conversationId :: r.2)
    | none => (r.1, r.2)

/-- deliverPendingMessages(userId): select the undelivered messages addressed
to uid, then mark each delivered and notify its sender when reachable. -/
def deliverPendingMessages (s : ServerState) (uid t : Nat) : ServerState × List Output :=
  let pending := s.messages.filter (pendingFor s.conversations uid)
  let r := replayRun s.connectedUsers t s.messages pending
  ({ s with messages := r.1 }, r.2)

/-- sendUpdatedConversationData(userId): modelled as an opaque marker event;
it is emitted only when the user has at least one conversation and its socket
is found in connectedUsers. -/
def sendUpdatedConversationData (s : ServerState) (uid : Nat) : List Output :=
  let convs := s.conversations.filter (fun c => c.user1 == uid || c.user2 == uid)
  if convs.isEmpty then []
  else
    match mapGet s.connectedUsers uid with
    | some _ => [Output.conversationsUpdated uid]
    | none => []

/-- Eviction prologue of the authenticate handler: when the user already has
a different connection, drop its reverse mapping and force-close it (the
disconnect call only happens when io.sockets.sockets.get finds the socket). -/
def authCleanup (s : ServerState) (sock uid : Nat) : ServerState × List Output :=
  match mapGet s.connectedUsers uid with
  | some oldSock =>
    if oldSock != sock then
      ({ s with userSockets := mapDelete s.userSockets oldSock,
                liveSockets := s.liveSockets.filter (fun x => x != oldSock) },
       if s.liveSockets.contains oldSock then [Output.forceDisconnect oldSock] else [])
    else (s, ([] : List Output))
  | none => (s, ([] : List Output))

/-- Registration part of the authenticate handler: install the connection in
the three maps and mark the user online in the store. -/
def authRegister (s1 : ServerState) (sock uid t : Nat) : ServerState :=
  { s1 with
    connectedUsers := mapSet s1.connectedUsers uid sock,
    userSockets := mapSet s1.userSockets sock uid,
    userHeartbeats := mapSet s1.userHeartbeats uid t,
    users := setUserOnline s1.users uid true t }

/-- The authenticate handler (success path of jwt.verify): evict a previous
connection of the user, install the new one, mark the user online, replay
pending deliveries, push conversation data, broadcast the status change, and
acknowledge. -/
def handleAuthenticate (s : ServerState) (sock uid t : Nat) : ServerState × List Output :=
  let cleanup := authCleanup s sock uid
  let s2 := authRegister cleanup.1 sock uid t
  let r := deliverPendingMessages s2 uid t
  (r.1, cleanup.2 ++ r.2 ++ sendUpdatedConversationData r.1 uid
      ++ [Output.userStatusChange uid true, Output.authenticated sock])

/-- The heartbeat handler: refresh the heartbeat timestamp and last_seen of
the user owning the socket; no-op for unknown sockets. -/
def handleHeartbeat (s : ServerState) (sock t : Nat) : ServerState × List Output :=
  match mapGet s.userSockets sock with
  | some uid =>
    ({ s with userHeartbeats := mapSet s.userHeartbeats uid t,
              users := touchLastSeen s.users uid t }, [])
  | none => (s, [])

/-- The app_state_change handler: active marks the user online and replays
pending deliveries; background/inactive mark the user offline. -/
def handleAppStateChange (s : ServerState) (sock : Nat) (st : AppState) (t : Nat) :
    ServerState × List Output :=
  match mapGet s.userSockets sock with
  | none => (s, [])
  | some uid =>
    match st with
    | AppState.active =>
      let s1 := { s with users := setUserOnline s.users uid true t }
      let r := deliverPendingMessages s1 uid t
      (r.1, r.2 ++ sendUpdatedConversationData r.1 uid ++ [Output.userStatusChange uid true])
    | _ =>
      ({ s with users := setUserOnline s.users uid false t },
       [Output.userStatusChange uid false])

/-- The typing:start handler: upsert the typing entry of data.userId (the
socket is not consulted), emit to the conversation room, and fan out the
user_typing_status events. -/
def handleTypingStart (s : ServerState) (_sock uid cid t : Nat) : ServerState × List Output :=
  let s1 := { s with userTypingStatus := mapSet s.userTypingStatus uid (cid, t) }
  (s1, Output.typingRoom cid uid true :: emitTypingStatus s1 uid cid true)

/-- The typing:stop handler: remove the typing entry of data.userId and fan
out the user_typing_status events. -/
def handleTypingStop (s : ServerState) (_sock uid cid : Nat) : ServerState × List Output :=
  let s1 := { s with userTypingStatus := mapDelete s.userTypingStatus uid }
  (s1, Output.typingRoom cid uid false :: emitTypingStatus s1 uid cid false)

/-- Freshly inserted message row (INSERT INTO messages ... RETURNING *). -/
def mkMessage (mid cid sender : Nat) (content : String) (t : Nat) : Message :=
  { id := mid, conversationId := cid, senderId := sender, content := content,
    isDelivered := false, isRead := false, deliveredAt := none, readAt := none,
    createdAt := t }

/-- First half of the message:send handler, up to and including the INSERT.
Returns the new state and the inserted row. -/
def sendPhase1 (s : ServerState) (cid sender : Nat) (content : String) (t : Nat) :
    ServerState × Message :=
  let m := mkMessage s.nextMessageId cid sender content t
  ({ s with messages := s.messages ++ [m], nextMessageId := s.nextMessageId + 1 }, m)

/-- Second half of the message:send handler, from the conversation lookup on:
decide delivery from the users.is_online flag of the other participant, run
the (unguarded) UPDATE ... WHERE id = msg.id, re-fetch the row, and emit
message:new to the sender and, through its socket, to the recipient. -/
def sendPhase2 (s : ServerState) (sock : Nat) (msg : Message) (t : Nat) :
    ServerState × List Output :=
  match convLookup s msg.conversationId with
  | none => (s, [])
  | some c =>
    let other := otherParticipant c msg.senderId
    if dbOnline s other then
      let msgs := s.messages.map (fun x => if x.id == msg.id then markDelivered t x else x)
      let s1 := { s with messages := msgs }
      match msgs.find? (fun x => x.id == msg.id) with
      | some updated =>
        (s1, Output.messageNewDirect sock updated "delivered" ::
          (match mapGet s.connectedUsers other with
           | some os => [Output.messageNewRoom os updated "delivered"]
           | none => []))
      | none => (s1, [])
    else
      (s, [Output.messageNewDirect sock msg "sent"])

/-- The message:send handler.  The INSERT carries foreign keys on
conversation_id and sender_id; when either is violated the query throws and
the catch block emits message:error.  Otherwise the handler is phase 1
(insert) followed by phase 2 (delivery decision and notification). -/
def handleMessageSend (s : ServerState) (sock cid sender : Nat) (content : String) (t : Nat) :
    ServerState × List Output :=
  if (convLookup s cid).isSome && userExists s sender then
    let p := sendPhase1 s cid sender content t
    sendPhase2 p.1 sock p.2 t
  else
    (s, [Output.messageError sock])

/-- The message:read handler: batch UPDATE of every unread message in the
conversation not authored by the reader; notify the other participant when at
least one row changed and its socket is found; always broadcast the
conversation-level read event. -/
def handleMessageRead (s : ServerState) (_sock cid reader t : Nat) : ServerState × List Output :=
  let affected := s.messages.filter
    (fun m => m.conversationId == cid && m.senderId != reader && !m.isRead)
  let msgs := s.messages.map
    (fun m => if m.conversationId == cid && m.senderId != reader && !m.isRead
              then markRead t m else m)
  let s1 := { s with messages := msgs }
  let ids := affected.map (fun m => m.id)
  let targeted :=
    if affected.isEmpty then []
    else
      match convLookup s cid with
      | some c =>
        (match mapGet s.connectedUsers (otherParticipant c reader) with
         | some os => [Output.messageReadTargeted os cid ids reader]
         | none => [])
      | none => []
  (s1, targeted ++ [Output.messageReadBroadcast cid reader])

/-- The conversation_opened handler: purely informational broadcast. -/
def handleConversationOpened (s : ServerState) (cid uid : Nat) : ServerState × List Output :=
  (s, [Output.conversationOpened cid uid])

/-- The disconnect handler: mark offline, drop the user from all three maps,
flush a lingering typing entry (fanning out isTyping = false), and broadcast
the status change.  A socket with no userSockets entry is a no-op. -/
def handleDisconnect (s : ServerState) (sock t : Nat) : ServerState × List Output :=
  let s0 := { s with liveSockets := s.liveSockets.filter (fun x => x != sock) }
  match mapGet s0.userSockets sock with
  | none => (s0, [])
  | some uid =>
    let s1 := { s0 with
      users := setUserOnline s0.users uid false t,
      connectedUsers := mapDelete s0.connectedUsers uid,
      userSockets := mapDelete s0.userSockets sock,
      userHeartbeats := mapDelete s0.userHeartbeats uid }
    match mapGet s1.userTypingStatus uid with
    | some cd =>
      let s2 := { s1 with userTypingStatus := mapDelete s1.userTypingStatus uid }
      (s2, emitTypingStatus s2 uid cd.1 false ++ [Output.userStatusChange uid false])
    | none => (s1, [Output.userStatusChange uid false])

/-- HEARTBEAT_TIMEOUT = 30000. -/
def heartbeatTimeout : Nat := 30000

/-- Body of the heartbeat-cleanup loop for the stale entries: mark offline,
remove from connectedUsers, userSockets (via the forward lookup) and
userHeartbeats, and broadcast the status change.  Note that the loop touches
neither userTypingStatus nor the socket itself. -/
def evictRun (t : Nat) : ServerState → List (Nat × Nat) → ServerState × List Output
  | s, [] => (s, [])
  | s, (uid, _) :: rest =>
    let sockOpt := mapGet s.connectedUsers uid
    let s1 := { s with
      users := setUserOnline s.users uid false t,
      connectedUsers := mapDelete s.connectedUsers uid,
      userSockets := match sockOpt with
        | some sid => mapDelete s.userSockets sid
        | none => s.userSockets,
      userHeartbeats := mapDelete s.userHeartbeats uid }
    let r := evictRun t s1 rest
    (r.1, Output.userStatusChange uid false :: r.2)

/-- One pass of startHeartbeatCleanup: evict every connection whose heartbeat
is older than the timeout. -/
def handleSweep (s : ServerState) (t : Nat) : ServerState × List Output :=
  evictRun t s (s.userHeartbeats.filter (fun p => heartbeatTimeout < t - p.2))

/-- A socket opening a connection (io.on connection). -/
def handleConnect (s : ServerState) (sock : Nat) : ServerState × List Output :=
  if s.liveSockets.contains sock then (s, [])
  else ({ s with liveSockets := sock :: s.liveSockets }, [])

/-- Inbound events of the socket layer.  authenticate models the success path
of the token verification (the decoded userId is carried directly). -/
inductive Event where
  | connect (sock : Nat)
  | authenticate (sock uid t : Nat)
  | heartbeat (sock t : Nat)
  | appStateChange (sock : Nat) (st : AppState) (t : Nat)
  | typingStart (sock uid cid t : Nat)
  | typingStop (sock uid cid : Nat)
  | messageSend (sock cid sender : Nat) (content : String) (t : Nat)
  | messageRead (sock cid reader t : Nat)
  | conversationOpened (sock cid uid : Nat)
  | disconnect (sock t : Nat)
  | sweep (t : Nat)
  deriving DecidableEq

/-- One atomic event-handler execution. -/
def step (s : ServerState) : Event → ServerState × List Output
  | Event.connect sock => handleConnect s sock
  | Event.authenticate sock uid t => handleAuthenticate s sock uid t
  | Event.heartbeat sock t => handleHeartbeat s sock t
  | Event.appStateChange sock st t => handleAppStateChange s sock st t
  | Event.typingStart sock uid cid t => handleTypingStart s sock uid cid t
  | Event.typingStop sock uid cid => handleTypingStop s sock uid cid
  | Event.messageSend sock cid sender content t => handleMessageSend s sock cid sender content t
  | Event.messageRead sock cid reader t => handleMessageRead s sock cid reader t
  | Event.conversationOpened _ cid uid => handleConversationOpened s cid uid
  | Event.disconnect sock t => handleDisconnect s sock t
  | Event.sweep t => handleSweep s t

/-- Execute a sequence of events, accumulating the outputs. -/
def run (s : ServerState) : List Event → ServerState × List Output
  | [] => (s, [])
  | e :: es =>
    let r := step s e
    let r2 := run r.1 es
    (r2.1, r.2 ++ r2.2)

/-- Server start: given tables, all users are reset to offline
(UPDATE users SET is_online = false on startup), maps empty. -/
def initState (users : List UserRow) (convs : List Conversation) : ServerState :=
  { users := users.map (fun u => { u with isOnline := false }),
    conversations := convs, messages := [], nextMessageId := 1,
    connectedUsers := [], userSockets := [], userHeartbeats := [],
    userTypingStatus := [], liveSockets := [] }

/-! Observables and invariant predicates used by the claims. -/

/-- An output counting as a replay delivered-notification for message mid
(the message:delivered event). -/
def isReplayNotifFor (mid : Nat) : Output → Bool
  | Output.messageDelivered _ i _ => i == mid
  | _ => false

/-- An output counting as a delivered-notification to the sender for message
mid: either a message:delivered event or the inline message:new with
deliveryStatus delivered emitted on the sender's own socket. -/
def isDeliveredNotifFor (mid : Nat) : Output → Bool
  | Output.messageDelivered _ i _ => i == mid
  | Output.messageNewDirect _ m st => m.id == mid && st == "delivered"
  | _ => false

/-- Number of replay delivered-notifications for mid in an output list. -/
def cntReplayNotif (outs : List Output) (mid : Nat) : Nat :=
  (outs.filter (isReplayNotifFor mid)).length

/-- Number of delivered-notifications (replay or inline) for mid. -/
def cntDeliveredNotif (outs : List Output) (mid : Nat) : Nat :=
  (outs.filter (isDeliveredNotifFor mid)).length

/-- An output counting as a user_typing_status isTyping=false event for user
uid delivered to socket sockv. -/
def isTypingStopFor (sockv uid : Nat) : Output → Bool
  | Output.userTypingStatus os u _ b => os == sockv && u == uid && !b
  | _ => false

/-- Number of isTyping=false events for uid delivered to socket sockv. -/
def cntTypingStop (outs : List Output) (sockv uid : Nat) : Nat :=
  (outs.filter (isTypingStopFor sockv uid)).length

/-- An output that is a targeted message:read event. -/
def isReadTargeted : Output → Bool
  | Output.messageReadTargeted _ _ _ _ => true
  | _ => false

/-- deliveryState of a message row as a rank: sent = 0, delivered = 1,
read = 2 (read if is_read, else delivered if is_delivered, else sent). -/
def deliveryRank (m : Message) : Nat :=
  if m.isRead then 2 else if m.isDelivered then 1 else 0

/-- Message-id sanity of a state: distinct ids, all below the id counter. -/
def idsOk (s : ServerState) : Prop :=
  (s.messages.map Message.id).Nodup ∧ ∀ m ∈ s.messages, m.id < s.nextMessageId

/-- Every message row with this id is marked delivered. -/
def allDeliveredById (s : ServerState) (mid : Nat) : Prop :=
  ∀ m ∈ s.messages, m.id = mid → m.isDelivered = true

/-- Per-message evolution order: same id, delivery and read flags only ever
turn on. -/
def MsgLe (m m2 : Message) : Prop :=
  m2.id = m.id ∧ (m.isDelivered = true → m2.isDelivered = true) ∧
    (m.isRead = true → m2.isRead = true)

/-- Shape of one handler execution on the messages table: existing rows are
transformed by a flag-monotone, id-preserving function, and at most one new
row is appended, carrying the current id counter. -/
def StepShape (s s2 : ServerState) : Prop :=
  ∃ (f : Message → Message) (extra : List Message),
    s2.messages = s.messages.map f ++ extra ∧
    (∀ x, MsgLe x (f x)) ∧
    (∀ m ∈ extra, m.id = s.nextMessageId) ∧
    s2.nextMessageId = s.nextMessageId + extra.length ∧
    extra.length ≤ 1

/-- Registry well-formedness: reverse-map keys are distinct, and every
reverse entry socket ↦ user is mirrored by the forward map. -/
def wfRegistry (s : ServerState) : Prop :=
  (s.userSockets.map Prod.fst).Nodup ∧
  ∀ p ∈ s.userSockets, mapGet s.connectedUsers p.2 = some p.1

/-- The two conversations hold the same unordered participant pair. -/
def samePair (c c2 : Conversation) : Prop :=
  (c.user1 = c2.user1 ∧ c.user2 = c2.user2) ∨ (c.user1 = c2.user2 ∧ c.user2 = c2.user1)

/-- No two conversation rows share the same unordered participant pair
(the invariant the conversation-creation route maintains). -/
def ConvsOk (convs : List Conversation) : Prop :=
  List.Pairwise (fun c c2 => ¬ samePair c c2) convs

/-- c is exactly the conversation between u and v (in either order). -/
def pairIs (u v : Nat) (c : Conversation) : Prop :=
  (c.user1 = u ∧ c.user2 = v) ∨ (c.user1 = v ∧ c.user2 = u)

/-- u and v share at least one conversation. -/
def sharesConv (s : ServerState) (u v : Nat) : Prop :=
  ∃ c ∈ s.conversations, pairIs u v c

/-- Distinct users hold distinct sockets in connectedUsers: two entries with
the same socket value have the same user key. -/
def cuInj (cu : List (Nat × Nat)) : Prop :=
  ∀ p ∈ cu, ∀ q ∈ cu, p.2 = q.2 → p.1 = q.1

/-- The C3 trace invariant: sane ids and, per message id, at most one
delivered-notification so far, and any notified id is an already-delivered,
already-allocated id. -/
def C3Inv (s : ServerState) (outs : List Output) : Prop :=
  idsOk s ∧ ∀ mid, cntDeliveredNotif outs mid ≤ 1 ∧
    (1 ≤ cntDeliveredNotif outs mid → allDeliveredById s mid ∧ mid < s.nextMessageId)

/-! Concrete scenarios used by counterexamples and witnesses. -/

/-- Three registered users. -/
def usersABC : List UserRow := [⟨1, false, 0⟩, ⟨2, false, 0⟩, ⟨3, false, 0⟩]

/-- One conversation between users 1 and 2. -/
def convsAB : List Conversation := [⟨10, 1, 2⟩]

/-- User 2 authenticates, then reports app state background (store flag goes
offline while the registry entry stays), then user 1 sends a message. -/
def c1trace : List Event :=
  [Event.connect 200, Event.authenticate 200 2 0,
   Event.appStateChange 200 AppState.background 1,
   Event.connect 100,
   Event.messageSend 100 10 1 "hi" 5]

/-- User 1 sends a message to offline user 2 (stays sent), then a
message:read for user 2 arrives: the message is marked read while still
undelivered. -/
def c2trace : List Event :=
  [Event.connect 100, Event.authenticate 100 1 0,
   Event.messageSend 100 10 1 "hi" 5,
   Event.messageRead 300 10 2 9]

/-- Sender 1 online; state just before the interleaved send in the C3
scenario. -/
def c3s0 : ServerState :=
  (run (initState usersABC convsAB) [Event.connect 100, Event.authenticate 100 1 0]).1

/-- The send handler's first half: message 1 is inserted in sent state. -/
def c3afterInsert : ServerState × Message := sendPhase1 c3s0 10 1 "hi" 50

/-- Interleaved at the await point: user 2 authenticates, the replay pass
delivers message 1 and notifies the sender. -/
def c3afterAuth : ServerState × List Output :=
  step c3afterInsert.1 (Event.authenticate 200 2 100)

/-- The send handler's second half resumes: it re-reads the store flag,
marks message 1 delivered again and notifies the sender inline. -/
def c3afterResume : ServerState × List Output := sendPhase2 c3afterAuth.1 100 c3afterInsert.2 200

/-- State for the C4/C5 witnesses: user 1 connected, one sent message to
user 2, socket 200 open. -/
def c4state : ServerState :=
  (run (initState usersABC convsAB)
    [Event.connect 100, Event.authenticate 100 1 0,
     Event.messageSend 100 10 1 "hi" 5, Event.connect 200]).1

/-- The message pending for user 2 in c4state. -/
def c4msg : Message := mkMessage 1 10 1 "hi" 5

/-- User 1 re-authenticates on a second socket while socket 100 is live. -/
def c5state : ServerState :=
  (run (initState usersABC convsAB)
    [Event.connect 100, Event.authenticate 100 1 0, Event.connect 150]).1

/-- Users 1 and 2 authenticate (user 2 late), user 1 starts typing, then a
sweep runs after user 1's heartbeat went stale: user 2 is still connected. -/
def c6trace : List Event :=
  [Event.connect 100, Event.authenticate 100 1 0,
   Event.connect 200, Event.authenticate 200 2 35000,
   Event.typingStart 100 1 10 36000,
   Event.sweep 40001]

/-- State for the C6 witness: both users connected, user 1 typing. -/
def c6state : ServerState :=
  (run (initState usersABC convsAB)
    [Event.connect 100, Event.authenticate 100 1 0,
     Event.connect 200, Event.authenticate 200 2 0,
     Event.typingStart 100 1 10 1]).1

/-- A message:read for a conversation with no unread messages. -/
def c7trace : List Event := [Event.messageRead 300 10 2 9]

/-- User 1 sends a message, then non-participant user 3 issues message:read
for conversation 10. -/
def c8trace : List Event :=
  [Event.connect 100, Event.authenticate 100 1 0,
   Event.messageSend 100 10 1 "hi" 5,
   Event.messageRead 300 10 3 9]

/-- State for the C8 witness: one sent, unread message in conversation 10. -/
def c8state : ServerState :=
  (run (initState usersABC convsAB)
    [Event.connect 100, Event.authenticate 100 1 0,
     Event.messageSend 100 10 1 "hi" 5]).1

/-- A message:send into a conversation id that has no conversation row. -/
def c10trace : List Event := [Event.messageSend 100 99 1 "x" 5]

/-! Generic lemmas about the association-map operations. -/

theorem find?_filter_of_imp {α : Type} (l : List α) (p q : α → Bool)
    (h : ∀ x, p x = true → q x = true) : (l.filter q).find? p = l.find? p := by
  induction l with
  | nil => rfl
  | cons a l ih =>
    by_cases hq : q a = true
    · rw [List.filter_cons_of_pos hq]
      by_cases hp : p a = true
      · rw [List.find?_cons_of_pos _ hp, List.find?_cons_of_pos _ hp]
      · rw [List.find?_cons_of_neg _ hp, List.find?_cons_of_neg _ hp, ih]
    · have hp : ¬ p a = true := fun hpa => hq (h a hpa)
      rw [List.filter_cons_of_neg hq, ih, List.find?_cons_of_neg _ hp]

theorem mapGet_set_self {α : Type} (m : List (Nat × α)) (k : Nat) (v : α) :
    mapGet (mapSet m k v) k = some v := by
  simp [mapGet, mapSet, List.find?_cons_of_pos]

theorem mapGet_set_ne {α : Type} (m : List (Nat × α)) (k k2 : Nat) (v : α) (h : k2 ≠ k) :
    mapGet (mapSet m k v) k2 = mapGet m k2 := by
  unfold mapGet mapSet
  rw [List.find?_cons_of_neg, find?_filter_of_imp]
  · intro x hx
    simp only [beq_iff_eq] at hx
    simp [bne_iff_ne, hx, h]
  · simp [beq_iff_eq]
    exact fun hk => absurd hk.symm h

theorem mapGet_delete_self {α : Type} (m : List (Nat × α)) (k : Nat) :
    mapGet (mapDelete m k) k = none := by
  unfold mapGet mapDelete
  rw [List.find?_eq_none.2]
  · rfl
  · intro x hx
    have := (List.mem_filter.1 hx).2
    simp only [bne_iff_ne, ne_eq] at this
    simp [beq_iff_eq, this]

theorem mapGet_delete_ne {α : Type} (m : List (Nat × α)) (k k2 : Nat) (h : k2 ≠ k) :
    mapGet (mapDelete m k) k2 = mapGet m k2 := by
  unfold mapGet mapDelete
  rw [find?_filter_of_imp]
  intro x hx
  simp only [beq_iff_eq] at hx
  simp [bne_iff_ne, hx, h]

/-! C10: message:send into a missing conversation. -/

/-- C10 (counterexample): a message:send whose conversationId has no
conversation row does not persist any message, and the sender does receive
an event, namely message:error (the INSERT violates the conversation_id
foreign key and the catch block fires).  This refutes both halves of the
claim (persisted in sent state; no event at all emitted). -/
theorem c10_counterexample :
    (run (initState usersABC convsAB) c10trace).1.messages = [] ∧
    (run (initState usersABC convsAB) c10trace).2 = [Output.messageError 100] := by
  decide

/-- C10 (amended): a message:send whose conversationId has no conversation
row is rejected by the messages foreign key: the state is unchanged (no row
inserted) and the sender receives exactly one message:error event. -/
theorem c10_fk_rejection (s : ServerState) (sock cid sender : Nat) (content : String)
    (t : Nat) (h : convLookup s cid = none) :
    step s (Event.messageSend sock cid sender content t) = (s, [Output.messageError sock]) := by
  simp [step, handleMessageSend, h]

/-- Witness for c10_fk_rejection at a concrete state. -/
theorem c10_fk_rejection_witness :
    convLookup (initState usersABC convsAB) 99 = none ∧
    step (initState usersABC convsAB) (Event.messageSend 100 99 1 "x" 5) =
      (initState usersABC convsAB, [Output.messageError 100]) :=
  ⟨by decide, c10_fk_rejection (initState usersABC convsAB) 100 99 1 "x" 5 (by decide)⟩

/-! C9: typing events trust the payload userId and ignore the emitting
socket entirely. -/

/-- C9: the typing:start and typing:stop handlers behave identically for any
emitting socket (registered, foreign, or unknown): the TypingState entry of
the payload userId is upserted resp. removed, and every connected user
sharing a conversation with that userId receives the user_typing_status
broadcast. -/
theorem c9_typing_any_socket (s : ServerState) (sock sock2 uid cid t : Nat) :
    step s (Event.typingStart sock2 uid cid t) = step s (Event.typingStart sock uid cid t) ∧
    step s (Event.typingStop sock2 uid cid) = step s (Event.typingStop sock uid cid) ∧
    mapGet (step s (Event.typingStart sock uid cid t)).1.userTypingStatus uid = some (cid, t) ∧
    mapGet (step s (Event.typingStop sock uid cid)).1.userTypingStatus uid = none ∧
    (∀ v os, v ∈ typingTargets s uid → mapGet s.connectedUsers v = some os →
      Output.userTypingStatus os uid cid true ∈ (step s (Event.typingStart sock uid cid t)).2 ∧
      Output.userTypingStatus os uid cid false ∈ (step s (Event.typingStop sock uid cid)).2) := by
  refine ⟨rfl, rfl, ?_, ?_, ?_⟩
  · exact mapGet_set_self s.userTypingStatus uid (cid, t)
  · exact mapGet_delete_self s.userTypingStatus uid
  · intro v os hv hos
    constructor
    · show _ ∈ Output.typingRoom cid uid true :: emitTypingStatus _ uid cid true
      refine List.mem_cons_of_mem _ ?_
      exact List.mem_filterMap.2 ⟨v, hv, by simp [hos]⟩
    · show _ ∈ Output.typingRoom cid uid false :: emitTypingStatus _ uid cid false
      refine List.mem_cons_of_mem _ ?_
      exact List.mem_filterMap.2 ⟨v, hv, by simp [hos]⟩

/-- Witness for c9_typing_any_socket: an unregistered socket (300) drives
user 1's typing indicator, observed by user 2. -/
theorem c9_typing_any_socket_witness :
    (2 ∈ typingTargets c6state 1 ∧ mapGet c6state.connectedUsers 2 = some 200) ∧
    Output.userTypingStatus 200 1 10 true ∈ (step c6state (Event.typingStart 300 1 10 5)).2 :=
  ⟨⟨by decide, by decide⟩,
   ((c9_typing_any_socket c6state 300 400 1 10 5).2.2.2.2 2 200 (by decide) (by decide)).1⟩

/-! Counterexamples evaluated on concrete traces. -/

/-- C1 (counterexample): after user 2 authenticates and then reports app
state background, user 2 still has a registered, non-evicted connection
(socket 200) yet user 1's message is left in sent state, because the
handler's delivery decision reads the store's is_online flag, which the
background transition has cleared.  This refutes the delivered-iff-reachable
claim. -/
theorem c1_counterexample :
    convLookup (run (initState usersABC convsAB) c1trace).1 10 = some ⟨10, 1, 2⟩ ∧
    mapGet (run (initState usersABC convsAB) c1trace).1.connectedUsers 2 = some 200 ∧
    (run (initState usersABC convsAB) c1trace).1.messages = [mkMessage 1 10 1 "hi" 5] := by
  decide

/-- C2 (counterexample): a message still in sent state is marked read by a
message:read event, so its deliveryState sequence is sent, read — not a
prefix of sent, delivered, read: the message reaches read without ever being
delivered. -/
theorem c2_counterexample :
    (run (initState usersABC convsAB) c2trace).1.messages =
      [markRead 9 (mkMessage 1 10 1 "hi" 5)] := by
  decide

/-- C3 (counterexample): interleaving the recipient's authenticate between
the send handler's INSERT and its delivery UPDATE (a real await boundary in
the handler, since handleMessageSend is definitionally sendPhase2 after
sendPhase1) makes delivered_at be written twice with different values, and
the sender receives two delivered notifications for message 1: a
message:delivered from the replay pass and an inline deliveryStatus
delivered from the resumed send handler. -/
theorem c3_counterexample :
    c3afterAuth.1.messages.map Message.deliveredAt = [some 100] ∧
    c3afterResume.1.messages.map Message.deliveredAt = [some 200] ∧
    cntDeliveredNotif (c3afterAuth.2 ++ c3afterResume.2) 1 = 2 := by
  decide

/-- C6 (counterexample): user 1 starts typing and is then evicted by the
heartbeat sweep; the sweep removes the registry entries but leaves the
TypingState entry in place and emits no isTyping=false event to user 2, who
is still connected and shares conversation 10 with user 1. -/
theorem c6_counterexample :
    (run (initState usersABC convsAB) c6trace).1.userTypingStatus = [(1, (10, 36000))] ∧
    mapGet (run (initState usersABC convsAB) c6trace).1.connectedUsers 1 = none ∧
    mapGet (run (initState usersABC convsAB) c6trace).1.connectedUsers 2 = some 200 ∧
    cntTypingStop (run (initState usersABC convsAB) c6trace).2 200 1 = 0 := by
  decide

/-- C7 (counterexample): a message:read event for a conversation with zero
transitioned messages still emits the conversation-level read broadcast,
refuting the only-if-at-least-one-transitioned claim. -/
theorem c7_counterexample :
    (run (initState usersABC convsAB) c7trace).1.messages = [] ∧
    (run (initState usersABC convsAB) c7trace).2 = [Output.messageReadBroadcast 10 2] := by
  decide

/-- C8 (counterexample): user 3, not a participant of conversation 10
(whose participants are 1 and 2), issues message:read and the store is
mutated: the message row is updated to read.  No access check rejects the
action. -/
theorem c8_counterexample :
    convLookup (run (initState usersABC convsAB) c8trace).1 10 = some ⟨10, 1, 2⟩ ∧
    (run (initState usersABC convsAB) c8trace).1.messages =
      [markRead 9 (mkMessage 1 10 1 "hi" 5)] := by
  decide

/-! C1 (amended): the delivery decision of message:send. -/

theorem ite_id_preserved (mid t : Nat) (x : Message) :
    (if x.id == mid then markDelivered t x else x).id = x.id := by
  split <;> rfl

theorem sendPhase2_online (s : ServerState) (sock : Nat) (msg : Message) (t : Nat)
    (c : Conversation) (hc : convLookup s msg.conversationId = some c)
    (hon : dbOnline s (otherParticipant c msg.senderId) = true)
    (hfind : (s.messages.map (fun x => if x.id == msg.id then markDelivered t x else x)).find?
        (fun x => x.id == msg.id) = some (markDelivered t msg)) :
    sendPhase2 s sock msg t =
      ({ s with messages :=
          s.messages.map (fun x => if x.id == msg.id then markDelivered t x else x) },
       Output.messageNewDirect sock (markDelivered t msg) "delivered" ::
         (match mapGet s.connectedUsers (otherParticipant c msg.senderId) with
          | some os => [Output.messageNewRoom os (markDelivered t msg) "delivered"]
          | none => [])) := by
  unfold sendPhase2
  rw [hc]
  simp only [hon, if_true, hfind]

theorem sendPhase2_offline (s : ServerState) (sock : Nat) (msg : Message) (t : Nat)
    (c : Conversation) (hc : convLookup s msg.conversationId = some c)
    (hoff : dbOnline s (otherParticipant c msg.senderId) = false) :
    sendPhase2 s sock msg t = (s, [Output.messageNewDirect sock msg "sent"]) := by
  unfold sendPhase2
  rw [hc]
  simp only [hoff, Bool.false_eq_true, if_false]

/-- C1 (amended): for a message:send whose conversation exists (and whose
sender is a registered user), the new message is transitioned to delivered
if and only if the store's is_online flag of the conversation's other
participant is true — not, as claimed, if and only if that participant has a
registered connection (the two can diverge, see the counterexample).  When
the flag is true the sender is notified with the post-transition state and
the recipient's socket, when found in connectedUsers, is notified likewise;
when it is false only the sender is notified, with the message in sent
state. -/
theorem c1_delivery_decision (s : ServerState) (sock cid sender : Nat) (content : String)
    (t : Nat) (c : Conversation) (hc : convLookup s cid = some c)
    (hs : userExists s sender = true)
    (hids : ∀ m ∈ s.messages, m.id < s.nextMessageId) :
    (∀ m2 ∈ (step s (Event.messageSend sock cid sender content t)).1.messages,
        m2.id = s.nextMessageId →
        m2.isDelivered = dbOnline s (otherParticipant c sender)) ∧
    (dbOnline s (otherParticipant c sender) = true →
      (step s (Event.messageSend sock cid sender content t)).2 =
        Output.messageNewDirect sock
            (markDelivered t (mkMessage s.nextMessageId cid sender content t)) "delivered" ::
          (match mapGet s.connectedUsers (otherParticipant c sender) with
           | some os => [Output.messageNewRoom os
               (markDelivered t (mkMessage s.nextMessageId cid sender content t)) "delivered"]
           | none => [])) ∧
    (dbOnline s (otherParticipant c sender) = false →
      (step s (Event.messageSend sock cid sender content t)).2 =
        [Output.messageNewDirect sock (mkMessage s.nextMessageId cid sender content t) "sent"]) := by
  have hstep : step s (Event.messageSend sock cid sender content t) =
      sendPhase2
        { s with messages := s.messages ++ [mkMessage s.nextMessageId cid sender content t],
                 nextMessageId := s.nextMessageId + 1 }
        sock (mkMessage s.nextMessageId cid sender content t) t := by
    simp [step, handleMessageSend, hc, hs, sendPhase1]
  have hc1 : convLookup
      { s with messages := s.messages ++ [mkMessage s.nextMessageId cid sender content t],
               nextMessageId := s.nextMessageId + 1 }
      (mkMessage s.nextMessageId cid sender content t).conversationId = some c := hc
  by_cases hon : dbOnline s (otherParticipant c sender) = true
  · have hfind : (((s.messages ++ [mkMessage s.nextMessageId cid sender content t]).map
        (fun x => if x.id == s.nextMessageId then markDelivered t x else x)).find?
          (fun x => x.id == s.nextMessageId)) =
        some (markDelivered t (mkMessage s.nextMessageId cid sender content t)) := by
      rw [List.map_append, List.find?_append, List.find?_eq_none.2, Option.none_or]
      · simp only [List.map_cons, List.map_nil]
        rw [show (if (mkMessage s.nextMessageId cid sender content t).id == s.nextMessageId
              then markDelivered t (mkMessage s.nextMessageId cid sender content t)
              else mkMessage s.nextMessageId cid sender content t) =
            markDelivered t (mkMessage s.nextMessageId cid sender content t) by simp [mkMessage]]
        exact List.find?_cons_of_pos _ (by simp [markDelivered, mkMessage])
      · intro x hx
        rcases List.mem_map.1 hx with ⟨y, hy, rfl⟩
        rw [ite_id_preserved]
        have hlt := hids y hy
        simp [Nat.ne_of_lt hlt]
    have heq := sendPhase2_online
      { s with messages := s.messages ++ [mkMessage s.nextMessageId cid sender content t],
               nextMessageId := s.nextMessageId + 1 }
      sock (mkMessage s.nextMessageId cid sender content t) t c hc1 hon hfind
    rw [heq] at hstep
    refine ⟨?_, fun _ => ?_, fun hoff => absurd hon (by simp [hoff])⟩
    · intro m2 hm2 hid2
      rw [hstep] at hm2
      rw [hon]
      rcases List.mem_map.1 hm2 with ⟨y, hy, rfl⟩
      rcases List.mem_append.1 hy with hy1 | hy2
      · exfalso
        have hlt := hids y hy1
        rw [ite_id_preserved] at hid2
        omega
      · have hynew : y = mkMessage s.nextMessageId cid sender content t := by simpa using hy2
        subst hynew
        simp [mkMessage, markDelivered]
    · rw [hstep]
      rfl
  · have hon2 : dbOnline s (otherParticipant c sender) = false := by
      revert hon; cases dbOnline s (otherParticipant c sender) <;> simp
    have heq := sendPhase2_offline
      { s with messages := s.messages ++ [mkMessage s.nextMessageId cid sender content t],
               nextMessageId := s.nextMessageId + 1 }
      sock (mkMessage s.nextMessageId cid sender content t) t c hc1 hon2
    rw [heq] at hstep
    refine ⟨?_, fun habs => absurd habs (by simp [hon2]), fun _ => ?_⟩
    · intro m2 hm2 hid2
      rw [hstep] at hm2
      rw [hon2]
      rcases List.mem_append.1 hm2 with hy1 | hy2
      · exfalso
        have hlt := hids m2 hy1
        omega
      · have : m2 = mkMessage s.nextMessageId cid sender content t := by simpa using hy2
        subst this
        rfl
    · rw [hstep]

/-- Witness for c1_delivery_decision: both users online, the message is
delivered and both sides are notified. -/
theorem c1_delivery_decision_witness :
    (convLookup c6state 10 = some ⟨10, 1, 2⟩ ∧ userExists c6state 1 = true ∧
      dbOnline c6state 2 = true) ∧
    (step c6state (Event.messageSend 100 10 1 "yo" 50)).2 =
      [Output.messageNewDirect 100 (markDelivered 50 (mkMessage 1 10 1 "yo" 50)) "delivered",
       Output.messageNewRoom 200 (markDelivered 50 (mkMessage 1 10 1 "yo" 50)) "delivered"] := by
  refine ⟨⟨by decide, by decide, by decide⟩, ?_⟩
  have h := (c1_delivery_decision c6state 100 10 1 "yo" 50 ⟨10, 1, 2⟩ (by decide) (by decide)
      (by decide)).2.1 (by decide)
  exact h.trans (by decide)

/-! C7 (amended): the read-receipt protocol. -/

theorem sendPhase2_messages (s : ServerState) (sock : Nat) (msg : Message) (t : Nat) :
    (sendPhase2 s sock msg t).1.messages = s.messages ∨
    (sendPhase2 s sock msg t).1.messages =
      s.messages.map (fun x => if x.id == msg.id then markDelivered t x else x) := by
  unfold sendPhase2
  cases hcv : convLookup s msg.conversationId with
  | none => exact Or.inl rfl
  | some c =>
    by_cases h : dbOnline s (otherParticipant c msg.senderId) = true
    · simp only [h, if_true]
      cases hf : (s.messages.map
          (fun x => if x.id == msg.id then markDelivered t x else x)).find?
            (fun x => x.id == msg.id) with
      | none => exact Or.inr rfl
      | some u => exact Or.inr rfl
    · simp only [h, if_false]
      exact Or.inl rfl

/-- C7 (amended): a message:read event transitions every unread message of
the conversation not authored by the reader to read in one batch.  The
targeted message:read event to the other participant (if its socket is
registered) carries exactly the affected message ids and is emitted only
when at least one message transitioned; the conversation-level broadcast,
however, is emitted on every message:read event, also when nothing
transitioned. -/
theorem c7_read_receipts (s : ServerState) (sock cid reader t : Nat) (c : Conversation)
    (hc : convLookup s cid = some c) :
    (∀ m ∈ s.messages, m.conversationId = cid → m.senderId ≠ reader → m.isRead = false →
        markRead t m ∈ (step s (Event.messageRead sock cid reader t)).1.messages) ∧
    Output.messageReadBroadcast cid reader ∈ (step s (Event.messageRead sock cid reader t)).2 ∧
    (s.messages.filter
        (fun m => m.conversationId == cid && m.senderId != reader && !m.isRead) = [] →
      (step s (Event.messageRead sock cid reader t)).2 =
        [Output.messageReadBroadcast cid reader]) ∧
    (∀ os,
      s.messages.filter
        (fun m => m.conversationId == cid && m.senderId != reader && !m.isRead) ≠ [] →
      mapGet s.connectedUsers (otherParticipant c reader) = some os →
      (step s (Event.messageRead sock cid reader t)).2 =
        [Output.messageReadTargeted os cid
          ((s.messages.filter
            (fun m => m.conversationId == cid && m.senderId != reader && !m.isRead)).map
              Message.id) reader,
         Output.messageReadBroadcast cid reader]) := by
  have hout : (step s (Event.messageRead sock cid reader t)).2 =
      (if (s.messages.filter
            (fun m => m.conversationId == cid && m.senderId != reader && !m.isRead)).isEmpty
       then []
       else
        match convLookup s cid with
        | some c2 =>
          (match mapGet s.connectedUsers (otherParticipant c2 reader) with
           | some os => [Output.messageReadTargeted os cid
               ((s.messages.filter
                 (fun m => m.conversationId == cid && m.senderId != reader && !m.isRead)).map
                   (fun m => m.id)) reader]
           | none => [])
        | none => []) ++ [Output.messageReadBroadcast cid reader] := rfl
  refine ⟨?_, ?_, ?_, ?_⟩
  · intro m hm hmc hms hmr
    show markRead t m ∈ s.messages.map
      (fun m2 => if m2.conversationId == cid && m2.senderId != reader && !m2.isRead
                 then markRead t m2 else m2)
    refine List.mem_map.2 ⟨m, hm, ?_⟩
    simp [hmc, hms, hmr]
  · rw [hout]
    exact List.mem_append_right _ (List.mem_singleton.2 rfl)
  · intro hempty
    rw [hout, if_pos (by rw [hempty]; rfl)]
    rfl
  · intro os hne hos
    rw [hout, if_neg (by simpa [List.isEmpty_iff] using hne), hc]
    dsimp only
    rw [hos]
    rfl

/-- Witness for c7_read_receipts: one unread message, other participant
connected, both notifications emitted with the affected id. -/
theorem c7_read_receipts_witness :
    (convLookup c8state 10 = some ⟨10, 1, 2⟩ ∧
     mapGet c8state.connectedUsers 1 = some 100) ∧
    (step c8state (Event.messageRead 200 10 2 9)).2 =
      [Output.messageReadTargeted 100 10 [1] 2, Output.messageReadBroadcast 10 2] := by
  refine ⟨⟨by decide, by decide⟩, ?_⟩
  have h := (c7_read_receipts c8state 200 10 2 9 ⟨10, 1, 2⟩ (by decide)).2.2.2 100
    (by decide) (by decide)
  exact h.trans (by decide)

/-! C8 (amended): no participant check on the socket handlers. -/

/-- C8 (amended): the socket handlers perform no participant check: a
message:read issued with a userId that is not a participant of the
conversation still marks the conversation's messages as read, and a
message:send from a non-participant sender still inserts a message row.
Store mutations happen; nothing is rejected. -/
theorem c8_no_access_check (s : ServerState) (sock cid w : Nat) (content : String)
    (t tr : Nat) (c : Conversation) (hc : convLookup s cid = some c)
    (_hw1 : w ≠ c.user1) (_hw2 : w ≠ c.user2) (hex : userExists s w = true)
    (m : Message) (hm : m ∈ s.messages) (hmc : m.conversationId = cid)
    (hms : m.senderId ≠ w) (hmr : m.isRead = false) :
    markRead tr m ∈ (step s (Event.messageRead sock cid w tr)).1.messages ∧
    (∃ m2 ∈ (step s (Event.messageSend sock cid w content t)).1.messages,
      m2.id = s.nextMessageId ∧ m2.senderId = w ∧ m2.conversationId = cid) := by
  constructor
  · show markRead tr m ∈ s.messages.map
      (fun m2 => if m2.conversationId == cid && m2.senderId != w && !m2.isRead
                 then markRead tr m2 else m2)
    refine List.mem_map.2 ⟨m, hm, ?_⟩
    simp [hmc, hms, hmr]
  · have hstep : step s (Event.messageSend sock cid w content t) =
        sendPhase2
          { s with messages := s.messages ++ [mkMessage s.nextMessageId cid w content t],
                   nextMessageId := s.nextMessageId + 1 }
          sock (mkMessage s.nextMessageId cid w content t) t := by
      simp [step, handleMessageSend, hc, hex, sendPhase1]
    rw [hstep]
    rcases sendPhase2_messages
        { s with messages := s.messages ++ [mkMessage s.nextMessageId cid w content t],
                 nextMessageId := s.nextMessageId + 1 }
        sock (mkMessage s.nextMessageId cid w content t) t with hmsgs | hmsgs
    · refine ⟨mkMessage s.nextMessageId cid w content t, ?_, rfl, rfl, rfl⟩
      rw [hmsgs]
      exact List.mem_append_right _ (List.mem_singleton.2 rfl)
    · refine ⟨markDelivered t (mkMessage s.nextMessageId cid w content t), ?_, rfl, rfl, rfl⟩
      rw [hmsgs]
      refine List.mem_map.2 ⟨mkMessage s.nextMessageId cid w content t,
        List.mem_append_right _ (List.mem_singleton.2 rfl), ?_⟩
      simp [mkMessage]

/-- Witness for c8_no_access_check: non-participant user 3 mutates
conversation 10's rows through both handlers. -/
theorem c8_no_access_check_witness :
    ((3 : Nat) ≠ 1 ∧ (3 : Nat) ≠ 2 ∧ c4msg ∈ c8state.messages) ∧
    markRead 9 c4msg ∈ (step c8state (Event.messageRead 300 10 3 9)).1.messages ∧
    (∃ m2 ∈ (step c8state (Event.messageSend 300 10 3 "intrude" 20)).1.messages,
      m2.id = c8state.nextMessageId ∧ m2.senderId = 3 ∧ m2.conversationId = 10) := by
  have h := c8_no_access_check c8state 300 10 3 "intrude" 20 9 ⟨10, 1, 2⟩ (by decide)
    (by decide) (by decide) (by decide) c4msg (by decide) (by decide) (by decide) (by decide)
  exact ⟨⟨by decide, by decide, by decide⟩, h.1, h.2⟩

/-! Evolution-shape machinery: each handler transforms the messages table by
an id-preserving, flag-monotone map, plus at most one appended fresh row. -/

theorem sendPhase2_nextId (s : ServerState) (sock : Nat) (msg : Message) (t : Nat) :
    (sendPhase2 s sock msg t).1.nextMessageId = s.nextMessageId := by
  unfold sendPhase2
  cases convLookup s msg.conversationId with
  | none => rfl
  | some c =>
    by_cases h : dbOnline s (otherParticipant c msg.senderId) = true
    · simp only [h, if_true]
      cases (s.messages.map (fun x => if x.id == msg.id then markDelivered t x else x)).find?
        (fun x => x.id == msg.id) <;> rfl
    · simp only [h, if_false]
      rfl

theorem msgLe_refl (x : Message) : MsgLe x x := ⟨rfl, fun h => h, fun h => h⟩

theorem msgLe_trans {x y z : Message} (h1 : MsgLe x y) (h2 : MsgLe y z) : MsgLe x z :=
  ⟨h2.1.trans h1.1, fun h => h2.2.1 (h1.2.1 h), fun h => h2.2.2 (h1.2.2 h)⟩

theorem msgLe_markDelivered (t : Nat) (x : Message) : MsgLe x (markDelivered t x) :=
  ⟨rfl, fun _ => rfl, fun h => h⟩

theorem msgLe_markRead (t : Nat) (x : Message) : MsgLe x (markRead t x) :=
  ⟨rfl, fun h => h, fun _ => rfl⟩

theorem msgLe_ite (p : Prop) [Decidable p] (g : Message → Message) (x : Message)
    (hg : MsgLe x (g x)) : MsgLe x (if p then g x else x) := by
  split
  · exact hg
  · exact msgLe_refl x

theorem replay_compose (t : Nat) (m : Message) (rest : List Message) (x : Message) :
    (if (rest.any fun m2 => (if x.id == m.id then markDelivered t x else x).id == m2.id) = true
     then markDelivered t (if x.id == m.id then markDelivered t x else x)
     else (if x.id == m.id then markDelivered t x else x)) =
    (if ((m :: rest).any fun m2 => x.id == m2.id) = true then markDelivered t x else x) := by
  have hid : (markDelivered t x).id = x.id := rfl
  by_cases h1 : (x.id == m.id) = true
  · simp only [h1, if_true, hid, List.any_cons, Bool.true_or]
    by_cases h2 : (rest.any fun m2 => x.id == m2.id) = true
    · simp only [h2, if_true]
      rfl
    · rw [if_neg h2]
  · have h1f : (x.id == m.id) = false := by
      revert h1; cases (x.id == m.id) <;> simp
    simp only [h1f, Bool.false_eq_true, if_false, List.any_cons, Bool.false_or]

theorem replayRun_messages (cu : List (Nat × Nat)) (t : Nat) (P : List Message) :
    ∀ msgs : List Message,
      (replayRun cu t msgs P).1 =
        msgs.map (fun x => if P.any (fun m => x.id == m.id) then markDelivered t x else x) := by
  induction P with
  | nil =>
    intro msgs
    simp [replayRun]
  | cons m rest ih =>
    intro msgs
    have hbody : (replayRun cu t msgs (m :: rest)).1 =
        (replayRun cu t (msgs.map (fun x => if x.id == m.id then markDelivered t x else x))
          rest).1 := by
      cases hs : mapGet cu m.senderId <;> simp [replayRun, hs]
    rw [hbody, ih, List.map_map]
    exact List.map_congr_left (fun x _ => replay_compose t m rest x)

theorem replayRun_outputs (cu : List (Nat × Nat)) (t : Nat) (P : List Message) :
    ∀ msgs : List Message,
      (replayRun cu t msgs P).2 =
        P.filterMap (fun m => (mapGet cu m.senderId).map
          (fun ss => Output.messageDelivered ss m.id m.conversationId)) := by
  induction P with
  | nil =>
    intro msgs
    simp [replayRun]
  | cons m rest ih =>
    intro msgs
    cases hs : mapGet cu m.senderId <;>
      simp [replayRun, hs, ih, List.filterMap_cons]

theorem deliverPending_messages (s : ServerState) (uid t : Nat) :
    (deliverPendingMessages s uid t).1.messages =
      s.messages.map (fun x =>
        if (s.messages.filter (pendingFor s.conversations uid)).any (fun m => x.id == m.id)
        then markDelivered t x else x) := by
  unfold deliverPendingMessages
  exact replayRun_messages s.connectedUsers t _ s.messages

theorem deliverPending_outputs (s : ServerState) (uid t : Nat) :
    (deliverPendingMessages s uid t).2 =
      (s.messages.filter (pendingFor s.conversations uid)).filterMap
        (fun m => (mapGet s.connectedUsers m.senderId).map
          (fun ss => Output.messageDelivered ss m.id m.conversationId)) := by
  unfold deliverPendingMessages
  exact replayRun_outputs s.connectedUsers t _ s.messages

theorem deliverPending_fields (s : ServerState) (uid t : Nat) :
    (deliverPendingMessages s uid t).1.nextMessageId = s.nextMessageId ∧
    (deliverPendingMessages s uid t).1.conversations = s.conversations ∧
    (deliverPendingMessages s uid t).1.connectedUsers = s.connectedUsers ∧
    (deliverPendingMessages s uid t).1.userTypingStatus = s.userTypingStatus :=
  ⟨rfl, rfl, rfl, rfl⟩

theorem evictRun_state (t : Nat) :
    ∀ (L : List (Nat × Nat)) (s : ServerState),
      (evictRun t s L).1.messages = s.messages ∧
      (evictRun t s L).1.userTypingStatus = s.userTypingStatus ∧
      (evictRun t s L).1.nextMessageId = s.nextMessageId := by
  intro L
  induction L with
  | nil => intro s; exact ⟨rfl, rfl, rfl⟩
  | cons p rest ih =>
    intro s
    obtain ⟨u, hb⟩ := p
    have h := ih { s with
      users := setUserOnline s.users u false t,
      connectedUsers := mapDelete s.connectedUsers u,
      userSockets := match mapGet s.connectedUsers u with
        | some sid => mapDelete s.userSockets sid
        | none => s.userSockets,
      userHeartbeats := mapDelete s.userHeartbeats u }
    exact h

theorem evictRun_outputs (t : Nat) :
    ∀ (L : List (Nat × Nat)) (s : ServerState) (o : Output),
      o ∈ (evictRun t s L).2 → ∃ u, o = Output.userStatusChange u false := by
  intro L
  induction L with
  | nil =>
    intro s o ho
    exact absurd ho (List.not_mem_nil o)
  | cons p rest ih =>
    intro s o ho
    obtain ⟨u, hb⟩ := p
    rcases List.mem_cons.1 ho with h | h
    · exact ⟨u, h⟩
    · exact ih _ o h

theorem stepShape_of_unchanged (s s2 : ServerState) (h1 : s2.messages = s.messages)
    (h2 : s2.nextMessageId = s.nextMessageId) : StepShape s s2 :=
  ⟨id, [], by rw [h1, List.map_id, List.append_nil], fun x => msgLe_refl x,
   by intro m hm; exact absurd hm (List.not_mem_nil m), by simp [h2], by simp⟩

theorem stepShape_of_map (s s2 : ServerState) (f : Message → Message)
    (hf : ∀ x, MsgLe x (f x)) (h1 : s2.messages = s.messages.map f)
    (h2 : s2.nextMessageId = s.nextMessageId) : StepShape s s2 :=
  ⟨f, [], by rw [h1, List.append_nil], hf,
   by intro m hm; exact absurd hm (List.not_mem_nil m), by simp [h2], by simp⟩

theorem stepShape_of_append (s s2 : ServerState) (f : Message → Message) (nm : Message)
    (hf : ∀ x, MsgLe x (f x)) (h1 : s2.messages = s.messages.map f ++ [nm])
    (hid : nm.id = s.nextMessageId) (h2 : s2.nextMessageId = s.nextMessageId + 1) :
    StepShape s s2 :=
  ⟨f, [nm], h1, hf, by intro m hm; rw [List.mem_singleton.1 hm]; exact hid,
   by simp [h2], by simp⟩

theorem authCleanup_fields (s : ServerState) (sock uid : Nat) :
    (authCleanup s sock uid).1.messages = s.messages ∧
    (authCleanup s sock uid).1.nextMessageId = s.nextMessageId ∧
    (authCleanup s sock uid).1.conversations = s.conversations ∧
    (authCleanup s sock uid).1.connectedUsers = s.connectedUsers ∧
    (authCleanup s sock uid).1.users = s.users ∧
    (authCleanup s sock uid).1.userTypingStatus = s.userTypingStatus := by
  unfold authCleanup
  cases mapGet s.connectedUsers uid with
  | none => exact ⟨rfl, rfl, rfl, rfl, rfl, rfl⟩
  | some oldSock =>
    by_cases h : (oldSock != sock) = true <;> simp [h]

theorem authCleanup_outputs (s : ServerState) (sock uid : Nat) :
    (authCleanup s sock uid).2 = [] ∨
    ∃ os, (authCleanup s sock uid).2 = [Output.forceDisconnect os] := by
  unfold authCleanup
  cases mapGet s.connectedUsers uid with
  | none => exact Or.inl rfl
  | some oldSock =>
    by_cases h : (oldSock != sock) = true
    · by_cases h2 : oldSock ∈ s.liveSockets
      · exact Or.inr ⟨oldSock, by simp [h, h2]⟩
      · exact Or.inl (by simp [h, h2])
    · simp [h]

theorem sendUpdated_outputs (s : ServerState) (uid : Nat) :
    sendUpdatedConversationData s uid = [] ∨
    sendUpdatedConversationData s uid = [Output.conversationsUpdated uid] := by
  unfold sendUpdatedConversationData
  by_cases h : (s.conversations.filter (fun c => c.user1 == uid || c.user2 == uid)).isEmpty = true
  · simp [h]
  · simp only [h, if_false]
    cases mapGet s.connectedUsers uid <;> simp

theorem handleAuthenticate_eq (s : ServerState) (sock uid t : Nat) :
    handleAuthenticate s sock uid t =
      ((deliverPendingMessages (authRegister (authCleanup s sock uid).1 sock uid t) uid t).1,
       (authCleanup s sock uid).2
         ++ (deliverPendingMessages (authRegister (authCleanup s sock uid).1 sock uid t) uid t).2
         ++ sendUpdatedConversationData
              (deliverPendingMessages (authRegister (authCleanup s sock uid).1 sock uid t) uid t).1
              uid
         ++ [Output.userStatusChange uid true, Output.authenticated sock]) := rfl

theorem msgLe_rank {m m2 : Message} (h : MsgLe m m2) : deliveryRank m ≤ deliveryRank m2 := by
  obtain ⟨_, hd, hr⟩ := h
  unfold deliveryRank
  by_cases h1 : m.isRead = true
  · rw [if_pos h1, if_pos (hr h1)]
  · rw [if_neg h1]
    by_cases h2 : m.isDelivered = true
    · rw [if_pos h2]
      by_cases h3 : m2.isRead = true
      · rw [if_pos h3]
        omega
      · rw [if_neg h3, if_pos (hd h2)]
    · rw [if_neg h2]
      exact Nat.zero_le _

theorem step_shape (s : ServerState) (e : Event) : StepShape s (step s e).1 := by
  cases e with
  | connect sock =>
    show StepShape s (handleConnect s sock).1
    unfold handleConnect
    split
    · exact stepShape_of_unchanged s _ rfl rfl
    · exact stepShape_of_unchanged s _ rfl rfl
  | authenticate sock uid t =>
    show StepShape s (handleAuthenticate s sock uid t).1
    rw [handleAuthenticate_eq]
    have hm : (authRegister (authCleanup s sock uid).1 sock uid t).messages = s.messages :=
      (authCleanup_fields s sock uid).1
    have hn : (authRegister (authCleanup s sock uid).1 sock uid t).nextMessageId =
        s.nextMessageId := (authCleanup_fields s sock uid).2.1
    refine stepShape_of_map s _ _ ?_ (by rw [deliverPending_messages, hm]) hn
    exact fun x => msgLe_ite _ _ x (msgLe_markDelivered t x)
  | heartbeat sock t =>
    show StepShape s (handleHeartbeat s sock t).1
    unfold handleHeartbeat
    cases mapGet s.userSockets sock with
    | some uid => exact stepShape_of_unchanged s _ rfl rfl
    | none => exact stepShape_of_unchanged s _ rfl rfl
  | appStateChange sock st t =>
    show StepShape s (handleAppStateChange s sock st t).1
    unfold handleAppStateChange
    cases mapGet s.userSockets sock with
    | none => exact stepShape_of_unchanged s _ rfl rfl
    | some uid =>
      cases st with
      | active =>
        refine stepShape_of_map s _ _ ?_
          (deliverPending_messages { s with users := setUserOnline s.users uid true t } uid t) rfl
        exact fun x => msgLe_ite _ _ x (msgLe_markDelivered t x)
      | background => exact stepShape_of_unchanged s _ rfl rfl
      | inactive => exact stepShape_of_unchanged s _ rfl rfl
  | typingStart sock uid cid t =>
    exact stepShape_of_unchanged s _ rfl rfl
  | typingStop sock uid cid =>
    exact stepShape_of_unchanged s _ rfl rfl
  | messageSend sock cid sender content t =>
    show StepShape s (handleMessageSend s sock cid sender content t).1
    unfold handleMessageSend
    split
    · rcases sendPhase2_messages (sendPhase1 s cid sender content t).1 sock
          (sendPhase1 s cid sender content t).2 t with hmsgs | hmsgs
      · refine stepShape_of_append s _ id (mkMessage s.nextMessageId cid sender content t)
          (fun x => msgLe_refl x) ?_ rfl ?_
        · rw [hmsgs]
          show s.messages ++ _ = s.messages.map id ++ _
          rw [List.map_id]
        · rw [sendPhase2_nextId]
          rfl
      · refine stepShape_of_append s _
          (fun x => if x.id == s.nextMessageId then markDelivered t x else x)
          (if (mkMessage s.nextMessageId cid sender content t).id == s.nextMessageId
           then markDelivered t (mkMessage s.nextMessageId cid sender content t)
           else mkMessage s.nextMessageId cid sender content t)
          (fun x => msgLe_ite _ _ x (msgLe_markDelivered t x)) ?_ ?_ ?_
        · rw [hmsgs]
          show (s.messages ++ [mkMessage s.nextMessageId cid sender content t]).map _ = _
          rw [List.map_append]
          rfl
        · rw [ite_id_preserved]
          rfl
        · rw [sendPhase2_nextId]
          rfl
    · exact stepShape_of_unchanged s _ rfl rfl
  | messageRead sock cid reader t =>
    refine stepShape_of_map s _
      (fun m => if m.conversationId == cid && m.senderId != reader && !m.isRead
                then markRead t m else m)
      (fun x => msgLe_ite _ _ x (msgLe_markRead t x)) rfl rfl
  | conversationOpened sock cid uid =>
    exact stepShape_of_unchanged s _ rfl rfl
  | disconnect sock t =>
    show StepShape s (handleDisconnect s sock t).1
    unfold handleDisconnect
    dsimp only
    split
    · exact stepShape_of_unchanged s _ rfl rfl
    · split
      · exact stepShape_of_unchanged s _ rfl rfl
      · exact stepShape_of_unchanged s _ rfl rfl
  | sweep t =>
    show StepShape s (handleSweep s t).1
    unfold handleSweep
    have h := evictRun_state t (s.userHeartbeats.filter
      (fun p => heartbeatTimeout < t - p.2)) s
    exact stepShape_of_unchanged s _ h.1 h.2.2

theorem stepShape_get (s s2 : ServerState) (h : StepShape s s2) (i : Nat)
    (hi : i < s.messages.length) :
    ∃ hi2 : i < s2.messages.length,
      MsgLe (s.messages.get ⟨i, hi⟩) (s2.messages.get ⟨i, hi2⟩) := by
  obtain ⟨f, extra, hm, hf, _hex, _hn, _hlen⟩ := h
  have hmap : i < (s.messages.map f).length := by
    rw [List.length_map]
    exact hi
  have hi2 : i < s2.messages.length := by
    rw [hm, List.length_append, List.length_map]
    omega
  refine ⟨hi2, ?_⟩
  have hget : s2.messages.get ⟨i, hi2⟩ = f (s.messages.get ⟨i, hi⟩) := by
    rw [List.get_eq_getElem, List.get_eq_getElem]
    simp only [hm]
    rw [List.getElem_append_left hmap, List.getElem_map]
  rw [hget]
  exact hf _

theorem stepShape_allDelivered (s s2 : ServerState) (h : StepShape s s2) (mid : Nat)
    (hlt : mid < s.nextMessageId) (hall : allDeliveredById s mid) :
    allDeliveredById s2 mid := by
  obtain ⟨f, extra, hm, hf, hex, _hn, _hlen⟩ := h
  intro m2 hm2 hid2
  rw [hm] at hm2
  rcases List.mem_append.1 hm2 with hin | hin
  · rcases List.mem_map.1 hin with ⟨x, hx, rfl⟩
    have hidx : (f x).id = x.id := (hf x).1
    exact (hf x).2.1 (hall x hx (by rw [← hidx, hid2]))
  · have := hex m2 hin
    omega

theorem stepShape_nextId_le (s s2 : ServerState) (h : StepShape s s2) :
    s.nextMessageId ≤ s2.nextMessageId := by
  obtain ⟨f, extra, _hm, _hf, _hex, hn, _hlen⟩ := h
  omega

theorem stepShape_idsOk (s s2 : ServerState) (h : StepShape s s2) (hids : idsOk s) :
    idsOk s2 := by
  obtain ⟨f, extra, hm, hf, hex, hn, hlen⟩ := h
  have hmapids : (s.messages.map f).map Message.id = s.messages.map Message.id := by
    rw [List.map_map]
    refine List.map_congr_left ?_
    intro x _
    exact (hf x).1
  constructor
  · rw [hm, List.map_append, hmapids]
    rcases hextra : extra with _ | ⟨nm, rest⟩
    · simpa using hids.1
    · have hrest : rest = [] := by
        have := hlen
        rw [hextra] at this
        simp at this
        exact this
      subst hrest
      rw [List.nodup_append]
      refine ⟨hids.1, List.nodup_singleton _, ?_⟩
      intro a ha hb
      have hida : a < s.nextMessageId := by
        rcases List.mem_map.1 ha with ⟨x, hx, rfl⟩
        exact hids.2 x hx
      have : a = nm.id := by
        rcases List.mem_map.1 hb with ⟨y, hy, rfl⟩
        rw [List.mem_singleton.1 hy]
      rw [hex nm (by rw [hextra]; exact List.mem_singleton.2 rfl)] at this
      omega
  · intro m hmm
    rw [hm] at hmm
    rcases List.mem_append.1 hmm with hin | hin
    · rcases List.mem_map.1 hin with ⟨x, hx, rfl⟩
      have : (f x).id = x.id := (hf x).1
      rw [this]
      have := hids.2 x hx
      omega
    · rw [hex m hin]
      have hpos : 0 < extra.length := List.length_pos.2 (List.ne_nil_of_mem hin)
      omega

/-- C2 (amended): message flags never regress: along any event sequence,
each existing message row keeps its id, its is_delivered and is_read flags
only ever turn on, and its deliveryState rank (sent < delivered < read)
never decreases.  The claim's stronger prefix property fails (see the
counterexample): a message can jump from sent directly to read, because
message:read does not require is_delivered. -/
theorem c2_monotonicity (evts : List Event) : ∀ (s : ServerState) (i : Nat)
    (hi : i < s.messages.length),
    ∃ hi2 : i < (run s evts).1.messages.length,
      MsgLe (s.messages.get ⟨i, hi⟩) ((run s evts).1.messages.get ⟨i, hi2⟩) ∧
      deliveryRank (s.messages.get ⟨i, hi⟩) ≤
        deliveryRank ((run s evts).1.messages.get ⟨i, hi2⟩) := by
  induction evts with
  | nil =>
    intro s i hi
    exact ⟨hi, msgLe_refl _, le_refl _⟩
  | cons e rest ih =>
    intro s i hi
    obtain ⟨h1, hle1⟩ := stepShape_get s (step s e).1 (step_shape s e) i hi
    obtain ⟨h2, hle2, _⟩ := ih (step s e).1 i h1
    exact ⟨h2, msgLe_trans hle1 hle2, msgLe_rank (msgLe_trans hle1 hle2)⟩

/-- Witness for c2_monotonicity on a concrete trace that reads a message. -/
theorem c2_monotonicity_witness :
    0 < c8state.messages.length ∧
    ∃ hi2 : 0 < (run c8state [Event.messageRead 300 10 2 9]).1.messages.length,
      MsgLe (c8state.messages.get ⟨0, by decide⟩)
        ((run c8state [Event.messageRead 300 10 2 9]).1.messages.get ⟨0, hi2⟩) ∧
      deliveryRank (c8state.messages.get ⟨0, by decide⟩) ≤
        deliveryRank ((run c8state [Event.messageRead 300 10 2 9]).1.messages.get ⟨0, hi2⟩) :=
  ⟨by decide, c2_monotonicity [Event.messageRead 300 10 2 9] c8state 0 (by decide)⟩

/-! Counting lemmas for delivered-notifications. -/

theorem cnt_append_replay (a b : List Output) (mid : Nat) :
    cntReplayNotif (a ++ b) mid = cntReplayNotif a mid + cntReplayNotif b mid := by
  unfold cntReplayNotif
  rw [List.filter_append, List.length_append]

theorem cnt_append_delivered (a b : List Output) (mid : Nat) :
    cntDeliveredNotif (a ++ b) mid = cntDeliveredNotif a mid + cntDeliveredNotif b mid := by
  unfold cntDeliveredNotif
  rw [List.filter_append, List.length_append]

theorem cntReplayNotif_eq_zero (outs : List Output) (mid : Nat)
    (h : ∀ o ∈ outs, isReplayNotifFor mid o = false) : cntReplayNotif outs mid = 0 := by
  unfold cntReplayNotif
  rw [List.filter_eq_nil.2 (fun o ho => by rw [h o ho]; exact Bool.false_ne_true)]
  rfl

theorem cntDeliveredNotif_eq_zero (outs : List Output) (mid : Nat)
    (h : ∀ o ∈ outs, isDeliveredNotifFor mid o = false) : cntDeliveredNotif outs mid = 0 := by
  unfold cntDeliveredNotif
  rw [List.filter_eq_nil.2 (fun o ho => by rw [h o ho]; exact Bool.false_ne_true)]
  rfl

theorem cntReplay_filterMap (cu : List (Nat × Nat)) (P : List Message) (mid : Nat) :
    cntReplayNotif (P.filterMap (fun m => (mapGet cu m.senderId).map
      (fun ss => Output.messageDelivered ss m.id m.conversationId))) mid =
    P.countP (fun m => m.id == mid && (mapGet cu m.senderId).isSome) := by
  unfold cntReplayNotif
  rw [← List.countP_eq_length_filter, List.countP_filterMap]
  refine List.countP_congr ?_
  intro m _
  cases h : mapGet cu m.senderId with
  | none => simp [h]
  | some ss => simp [h, isReplayNotifFor]

theorem cntDelivered_filterMap (cu : List (Nat × Nat)) (P : List Message) (mid : Nat) :
    cntDeliveredNotif (P.filterMap (fun m => (mapGet cu m.senderId).map
      (fun ss => Output.messageDelivered ss m.id m.conversationId))) mid =
    P.countP (fun m => m.id == mid && (mapGet cu m.senderId).isSome) := by
  unfold cntDeliveredNotif
  rw [← List.countP_eq_length_filter, List.countP_filterMap]
  refine List.countP_congr ?_
  intro m _
  cases h : mapGet cu m.senderId with
  | none => simp [h]
  | some ss => simp [h, isDeliveredNotifFor]

theorem countP_le_one_of_nodup (P : List Message)
    (hnd : (P.map Message.id).Nodup) (mid : Nat) (q : Message → Bool)
    (hq : ∀ m, q m = true → m.id = mid) : P.countP q ≤ 1 := by
  induction P with
  | nil => simp
  | cons a P ih =>
    rw [List.countP_cons]
    rw [List.map_cons, List.nodup_cons] at hnd
    by_cases hqa : q a = true
    · have h0 : P.countP q = 0 := by
        rw [List.countP_eq_zero]
        intro m hm hqm
        exact hnd.1 (List.mem_map.2 ⟨m, hm, by rw [hq m hqm, hq a hqa]⟩)
      rw [h0, if_pos hqa]
    · rw [if_neg hqa]
      have := ih hnd.2
      omega

theorem countP_eq_one_of_mem (P : List Message)
    (hnd : (P.map Message.id).Nodup) (mid : Nat) (q : Message → Bool)
    (hq : ∀ m, q m = true → m.id = mid) (m : Message) (hm : m ∈ P) (hqm : q m = true) :
    P.countP q = 1 := by
  have hle := countP_le_one_of_nodup P hnd mid q hq
  have hpos : 0 < P.countP q := List.countP_pos.2 ⟨m, hm, hqm⟩
  omega

/-! C4: replay completeness on authenticate. -/

/-- C4: immediately after a successful authenticate of user uid, every
message addressed to uid (in a conversation uid participates in, authored by
someone else) still undelivered is transitioned to delivered, and for each
such message whose sender is currently registered, the sender's socket
receives exactly one message:delivered event carrying the message id and
conversation id; an unregistered sender receives none. -/
theorem c4_replay_completeness (s : ServerState) (sock uid t : Nat)
    (hids : idsOk s) (m : Message) (hm : m ∈ s.messages)
    (c : Conversation) (hc : convLookup s m.conversationId = some c)
    (hpart : c.user1 = uid ∨ c.user2 = uid) (hsender : m.senderId ≠ uid)
    (hundeliv : m.isDelivered = false) :
    (∀ m2 ∈ (step s (Event.authenticate sock uid t)).1.messages,
        m2.id = m.id → m2.isDelivered = true) ∧
    (∀ ss,
      mapGet (step s (Event.authenticate sock uid t)).1.connectedUsers m.senderId = some ss →
        cntReplayNotif (step s (Event.authenticate sock uid t)).2 m.id = 1 ∧
        Output.messageDelivered ss m.id m.conversationId ∈
          (step s (Event.authenticate sock uid t)).2) ∧
    (mapGet (step s (Event.authenticate sock uid t)).1.connectedUsers m.senderId = none →
        cntReplayNotif (step s (Event.authenticate sock uid t)).2 m.id = 0) := by
  have hcf := authCleanup_fields s sock uid
  have hs2m : (authRegister (authCleanup s sock uid).1 sock uid t).messages = s.messages :=
    hcf.1
  have hs2c : (authRegister (authCleanup s sock uid).1 sock uid t).conversations =
      s.conversations := hcf.2.2.1
  have hs2cu : (authRegister (authCleanup s sock uid).1 sock uid t).connectedUsers =
      mapSet s.connectedUsers uid sock := by
    show mapSet (authCleanup s sock uid).1.connectedUsers uid sock = _
    rw [hcf.2.2.2.1]
  have h1 : (step s (Event.authenticate sock uid t)).1 =
      (deliverPendingMessages (authRegister (authCleanup s sock uid).1 sock uid t) uid t).1 := by
    show (handleAuthenticate s sock uid t).1 = _
    rw [handleAuthenticate_eq]
  have h2 : (step s (Event.authenticate sock uid t)).2 =
      (authCleanup s sock uid).2
        ++ (deliverPendingMessages (authRegister (authCleanup s sock uid).1 sock uid t) uid t).2
        ++ sendUpdatedConversationData
            (deliverPendingMessages (authRegister (authCleanup s sock uid).1 sock uid t) uid t).1
            uid
        ++ [Output.userStatusChange uid true, Output.authenticated sock] := by
    show (handleAuthenticate s sock uid t).2 = _
    rw [handleAuthenticate_eq]
  have hpl : (authRegister (authCleanup s sock uid).1 sock uid t).messages.filter
      (pendingFor (authRegister (authCleanup s sock uid).1 sock uid t).conversations uid) =
      s.messages.filter (pendingFor s.conversations uid) := by
    rw [hs2m, hs2c]
  have hmem : m ∈ s.messages.filter (pendingFor s.conversations uid) := by
    refine List.mem_filter.2 ⟨hm, ?_⟩
    unfold pendingFor
    rw [show convFind s.conversations m.conversationId = some c from hc]
    rcases hpart with hp | hp
    · simp [hp, bne_iff_ne, hsender, hundeliv]
    · simp [hp, bne_iff_ne, hsender, hundeliv]
  have hnd : ((s.messages.filter (pendingFor s.conversations uid)).map Message.id).Nodup :=
    List.Nodup.sublist (List.Sublist.map _ (List.filter_sublist _)) hids.1
  have hcu2 : (deliverPendingMessages
      (authRegister (authCleanup s sock uid).1 sock uid t) uid t).1.connectedUsers =
      mapSet s.connectedUsers uid sock := by
    rw [(deliverPending_fields _ uid t).2.2.1, hs2cu]
  refine ⟨?_, ?_, ?_⟩
  · intro m2 hm2 hid2
    rw [h1, deliverPending_messages] at hm2
    rcases List.mem_map.1 hm2 with ⟨x, hx, rfl⟩
    have hxid : (if ((authRegister (authCleanup s sock uid).1 sock uid t).messages.filter
        (pendingFor (authRegister (authCleanup s sock uid).1 sock uid t).conversations uid)).any
          (fun m3 => x.id == m3.id) = true
        then markDelivered t x else x).id = x.id := by
      split <;> rfl
    rw [hxid] at hid2
    have hany : (((authRegister (authCleanup s sock uid).1 sock uid t).messages.filter
        (pendingFor (authRegister (authCleanup s sock uid).1 sock uid t).conversations uid)).any
          (fun m3 => x.id == m3.id)) = true := by
      rw [hpl]
      exact List.any_eq_true.2 ⟨m, hmem, by rw [hid2]; exact beq_self_eq_true m.id⟩
    rw [if_pos hany]
    rfl
  · intro ss hss
    rw [h1, hcu2] at hss
    have hrep : cntReplayNotif (deliverPendingMessages
        (authRegister (authCleanup s sock uid).1 sock uid t) uid t).2 m.id = 1 := by
      rw [deliverPending_outputs, hpl, hs2cu, cntReplay_filterMap]
      refine countP_eq_one_of_mem _ hnd m.id _ ?_ m hmem ?_
      · intro m3 hq3
        rw [Bool.and_eq_true] at hq3
        exact beq_iff_eq.1 hq3.1
      · rw [beq_self_eq_true, hss]
        rfl
    constructor
    · rw [h2, cnt_append_replay, cnt_append_replay, cnt_append_replay, hrep]
      have hcl0 : cntReplayNotif (authCleanup s sock uid).2 m.id = 0 := by
        rcases authCleanup_outputs s sock uid with h | ⟨os, h⟩ <;>
          rw [h] <;> exact cntReplayNotif_eq_zero _ _ (by intro o ho; simp at ho <;> simp [ho, isReplayNotifFor])
      have hsu0 : cntReplayNotif (sendUpdatedConversationData
          (deliverPendingMessages (authRegister (authCleanup s sock uid).1 sock uid t) uid t).1
          uid) m.id = 0 := by
        rcases sendUpdated_outputs (deliverPendingMessages
            (authRegister (authCleanup s sock uid).1 sock uid t) uid t).1 uid with h | h <;>
          rw [h]
        · rfl
        · exact cntReplayNotif_eq_zero _ _
            (by intro o ho; rw [List.mem_singleton.1 ho]; rfl)
      have htl0 : cntReplayNotif
          [Output.userStatusChange uid true, Output.authenticated sock] m.id = 0 := rfl
      rw [hcl0, hsu0, htl0]
    · rw [h2]
      refine List.mem_append.2 (Or.inl (List.mem_append.2 (Or.inl
        (List.mem_append.2 (Or.inr ?_)))))
      rw [deliverPending_outputs, hpl, hs2cu]
      exact List.mem_filterMap.2 ⟨m, hmem, by rw [hss]; rfl⟩
  · intro hnone
    rw [h1, hcu2] at hnone
    rw [h2, cnt_append_replay, cnt_append_replay, cnt_append_replay]
    have hrep : cntReplayNotif (deliverPendingMessages
        (authRegister (authCleanup s sock uid).1 sock uid t) uid t).2 m.id = 0 := by
      rw [deliverPending_outputs, hpl, hs2cu, cntReplay_filterMap]
      rw [List.countP_eq_zero]
      intro m3 hm3 hq3
      rw [Bool.and_eq_true] at hq3
      have hand := hq3
      have hid3 : m3.id = m.id := beq_iff_eq.1 hand.1
      have hm3mem : m3 ∈ s.messages := (List.mem_filter.1 hm3).1
      have : m3 = m := List.inj_on_of_nodup_map hids.1 hm3mem hm hid3
      rw [this, hnone] at hand
      exact Bool.false_ne_true hand.2
    have hcl0 : cntReplayNotif (authCleanup s sock uid).2 m.id = 0 := by
      rcases authCleanup_outputs s sock uid with h | ⟨os, h⟩ <;> rw [h]
      · rfl
      · exact cntReplayNotif_eq_zero _ _ (by intro o ho; rw [List.mem_singleton.1 ho]; rfl)
    have hsu0 : cntReplayNotif (sendUpdatedConversationData
        (deliverPendingMessages (authRegister (authCleanup s sock uid).1 sock uid t) uid t).1
        uid) m.id = 0 := by
      rcases sendUpdated_outputs (deliverPendingMessages
          (authRegister (authCleanup s sock uid).1 sock uid t) uid t).1 uid with h | h <;>
        rw [h]
      · rfl
      · exact cntReplayNotif_eq_zero _ _
          (by intro o ho; rw [List.mem_singleton.1 ho]; rfl)
    rw [hrep, hcl0, hsu0]
    rfl

/-- Witness for c4_replay_completeness: user 2 authenticates with one pending
message from connected sender 1, which is delivered and acknowledged once. -/
theorem c4_replay_completeness_witness :
    ((c4state.messages.map Message.id).Nodup ∧ c4msg ∈ c4state.messages ∧
      c4msg.isDelivered = false) ∧
    (∀ m2 ∈ (step c4state (Event.authenticate 200 2 50)).1.messages,
        m2.id = c4msg.id → m2.isDelivered = true) ∧
    (mapGet (step c4state (Event.authenticate 200 2 50)).1.connectedUsers 1 = some 100) ∧
    cntReplayNotif (step c4state (Event.authenticate 200 2 50)).2 1 = 1 ∧
    Output.messageDelivered 100 1 10 ∈ (step c4state (Event.authenticate 200 2 50)).2 := by
  have h := c4_replay_completeness c4state 200 2 50 ⟨by decide, by decide⟩ c4msg (by decide)
    ⟨10, 1, 2⟩ (by decide) (Or.inr (by decide)) (by decide) (by decide)
  have hss : mapGet (step c4state (Event.authenticate 200 2 50)).1.connectedUsers 1 =
      some 100 := by decide
  exact ⟨⟨by decide, by decide, by decide⟩, h.1, hss, (h.2.1 100 hss).1, (h.2.1 100 hss).2⟩

/-! C3: at-most-once delivered notification under handler-atomic execution. -/

theorem emitTypingList_shape (cu : List (Nat × Nat)) (tg : List Nat) (uid cid : Nat) (b : Bool) :
    ∀ o ∈ emitTypingList cu tg uid cid b, ∃ os, o = Output.userTypingStatus os uid cid b := by
  intro o ho
  rcases List.mem_filterMap.1 ho with ⟨v, _, hv⟩
  cases h : mapGet cu v with
  | none =>
    rw [h] at hv
    exact absurd hv (by simp)
  | some os =>
    rw [h] at hv
    exact ⟨os, by simpa using hv.symm⟩

theorem c3_replay_part (s2 : ServerState) (uid t mid : Nat)
    (hnd : (s2.messages.map Message.id).Nodup) :
    cntDeliveredNotif (deliverPendingMessages s2 uid t).2 mid ≤ 1 ∧
    (1 ≤ cntDeliveredNotif (deliverPendingMessages s2 uid t).2 mid →
      ∃ m ∈ s2.messages, m.id = mid ∧ m.isDelivered = false) ∧
    (1 ≤ cntDeliveredNotif (deliverPendingMessages s2 uid t).2 mid →
      allDeliveredById (deliverPendingMessages s2 uid t).1 mid) := by
  have hnd2 : ((s2.messages.filter (pendingFor s2.conversations uid)).map Message.id).Nodup :=
    List.Nodup.sublist (List.Sublist.map _ (List.filter_sublist _)) hnd
  have hcnt : cntDeliveredNotif (deliverPendingMessages s2 uid t).2 mid =
      (s2.messages.filter (pendingFor s2.conversations uid)).countP
        (fun m => m.id == mid && (mapGet s2.connectedUsers m.senderId).isSome) := by
    rw [deliverPending_outputs, cntDelivered_filterMap]
  refine ⟨?_, ?_, ?_⟩
  · rw [hcnt]
    refine countP_le_one_of_nodup _ hnd2 mid _ ?_
    intro m hq
    rw [Bool.and_eq_true] at hq
    exact beq_iff_eq.1 hq.1
  · intro hge
    rw [hcnt] at hge
    rcases List.countP_pos.1 (Nat.lt_of_lt_of_le Nat.one_pos hge) with ⟨m, hmP, hq⟩
    rw [Bool.and_eq_true] at hq
    have hmmem := List.mem_filter.1 hmP
    have hp := hmmem.2
    unfold pendingFor at hp
    rw [Bool.and_eq_true, Bool.and_eq_true] at hp
    exact ⟨m, hmmem.1, beq_iff_eq.1 hq.1, by simpa using hp.2⟩
  · intro hge
    rw [hcnt] at hge
    rcases List.countP_pos.1 (Nat.lt_of_lt_of_le Nat.one_pos hge) with ⟨m, hmP, hq⟩
    rw [Bool.and_eq_true] at hq
    have hidm : m.id = mid := beq_iff_eq.1 hq.1
    intro m2 hm2 hid2
    rw [deliverPending_messages] at hm2
    rcases List.mem_map.1 hm2 with ⟨x, hx, rfl⟩
    have hxid : (if (s2.messages.filter (pendingFor s2.conversations uid)).any
        (fun m3 => x.id == m3.id) = true then markDelivered t x else x).id = x.id := by
      split <;> rfl
    rw [hxid] at hid2
    have hany : ((s2.messages.filter (pendingFor s2.conversations uid)).any
        (fun m3 => x.id == m3.id)) = true :=
      List.any_eq_true.2 ⟨m, hmP, by rw [hid2, hidm]; exact beq_self_eq_true mid⟩
    rw [if_pos hany]
    rfl

theorem c3_pack_zero {s s2 : ServerState} {outs : List Output} {mid : Nat}
    (hz : cntDeliveredNotif outs mid = 0) :
    cntDeliveredNotif outs mid ≤ 1 ∧
    (1 ≤ cntDeliveredNotif outs mid →
      allDeliveredById s2 mid ∧ mid < s2.nextMessageId ∧
      ¬ (allDeliveredById s mid ∧ mid < s.nextMessageId)) := by
  constructor
  · omega
  · intro hge
    rw [hz] at hge
    exact absurd hge (by omega)

theorem c3_handle_appState (s : ServerState) (sock : Nat) (st : AppState) (t : Nat)
    (hids : idsOk s) (mid : Nat) :
    cntDeliveredNotif (handleAppStateChange s sock st t).2 mid ≤ 1 ∧
    (1 ≤ cntDeliveredNotif (handleAppStateChange s sock st t).2 mid →
      allDeliveredById (handleAppStateChange s sock st t).1 mid ∧
      mid < (handleAppStateChange s sock st t).1.nextMessageId ∧
      ¬ (allDeliveredById s mid ∧ mid < s.nextMessageId)) := by
  unfold handleAppStateChange
  split
  · exact c3_pack_zero rfl
  · rename_i uid huid
    cases st with
    | active =>
      have hnd2 : (({ s with users := setUserOnline s.users uid true t }).messages.map
          Message.id).Nodup := hids.1
      have hrp := c3_replay_part { s with users := setUserOnline s.users uid true t }
        uid t mid hnd2
      have hsu0 : cntDeliveredNotif (sendUpdatedConversationData
          (deliverPendingMessages { s with users := setUserOnline s.users uid true t }
            uid t).1 uid) mid = 0 := by
        rcases sendUpdated_outputs (deliverPendingMessages
            { s with users := setUserOnline s.users uid true t } uid t).1 uid with h | h <;>
          rw [h]
        · rfl
        · exact cntDeliveredNotif_eq_zero _ _
            (fun o ho => by rw [List.mem_singleton.1 ho]; rfl)
      have hcnt : cntDeliveredNotif ((deliverPendingMessages
            { s with users := setUserOnline s.users uid true t } uid t).2
          ++ sendUpdatedConversationData
              (deliverPendingMessages { s with users := setUserOnline s.users uid true t }
                uid t).1 uid
          ++ [Output.userStatusChange uid true]) mid =
          cntDeliveredNotif (deliverPendingMessages
            { s with users := setUserOnline s.users uid true t } uid t).2 mid := by
        rw [cnt_append_delivered, cnt_append_delivered, hsu0]
        have htl : cntDeliveredNotif [Output.userStatusChange uid true] mid = 0 := rfl
        rw [htl]
        omega
      show cntDeliveredNotif ((deliverPendingMessages
            { s with users := setUserOnline s.users uid true t } uid t).2
          ++ sendUpdatedConversationData
              (deliverPendingMessages { s with users := setUserOnline s.users uid true t }
                uid t).1 uid
          ++ [Output.userStatusChange uid true]) mid ≤ 1 ∧ _
      rw [hcnt]
      refine ⟨hrp.1, ?_⟩
      intro hge
      obtain ⟨m, hm, hmid, hundeliv⟩ := hrp.2.1 hge
      refine ⟨hrp.2.2 hge, ?_, ?_⟩
      · show mid < (deliverPendingMessages
          { s with users := setUserOnline s.users uid true t } uid t).1.nextMessageId
        rw [(deliverPending_fields _ uid t).1]
        rw [← hmid]
        exact hids.2 m hm
      · rintro ⟨hall, _⟩
        have := hall m hm hmid
        rw [hundeliv] at this
        exact Bool.false_ne_true this
    | background => exact c3_pack_zero rfl
    | inactive => exact c3_pack_zero rfl

theorem c3_handle_send (s : ServerState) (sock cid sender : Nat) (content : String) (t : Nat)
    (hids : idsOk s) (mid : Nat) :
    cntDeliveredNotif (handleMessageSend s sock cid sender content t).2 mid ≤ 1 ∧
    (1 ≤ cntDeliveredNotif (handleMessageSend s sock cid sender content t).2 mid →
      allDeliveredById (handleMessageSend s sock cid sender content t).1 mid ∧
      mid < (handleMessageSend s sock cid sender content t).1.nextMessageId ∧
      ¬ (allDeliveredById s mid ∧ mid < s.nextMessageId)) := by
  unfold handleMessageSend
  split
  · unfold sendPhase2
    dsimp only
    split
    · exact c3_pack_zero rfl
    · rename_i c hc
      split
      · split
        · rename_i updated hfind
          have hupd : updated.id = s.nextMessageId := by
            have := List.find?_some hfind
            exact beq_iff_eq.1 this
          have hroom : cntDeliveredNotif
              (match mapGet (sendPhase1 s cid sender content t).1.connectedUsers
                (otherParticipant c (sendPhase1 s cid sender content t).2.senderId) with
               | some os => [Output.messageNewRoom os updated "delivered"]
               | none => []) mid = 0 := by
            split <;> rfl
          by_cases hu : (updated.id == mid) = true
          · have hone : cntDeliveredNotif
                (Output.messageNewDirect sock updated "delivered" ::
                  (match mapGet (sendPhase1 s cid sender content t).1.connectedUsers
                    (otherParticipant c (sendPhase1 s cid sender content t).2.senderId) with
                   | some os => [Output.messageNewRoom os updated "delivered"]
                   | none => [])) mid = 1 := by
              unfold cntDeliveredNotif at hroom ⊢
              rw [List.filter_cons_of_pos (by
                show isDeliveredNotifFor _ _ = true
                simp [isDeliveredNotifFor, hu])]
              rw [List.length_cons, hroom]
            have hmid : mid = s.nextMessageId := by
              rw [← beq_iff_eq.1 hu, hupd]
            refine ⟨by rw [hone], ?_⟩
            intro _
            refine ⟨?_, ?_, ?_⟩
            · intro m2 hm2 hid2
              have hm2b : m2 ∈ ((s.messages ++
                  [mkMessage s.nextMessageId cid sender content t]).map
                    (fun x => if x.id == (sendPhase1 s cid sender content t).2.id
                              then markDelivered t x else x)) := hm2
              rcases List.mem_map.1 hm2b with ⟨x, hx, rfl⟩
              have hxid : (if x.id == (sendPhase1 s cid sender content t).2.id
                  then markDelivered t x else x).id = x.id := by
                split <;> rfl
              rw [hxid] at hid2
              rcases List.mem_append.1 hx with hx1 | hx2
              · exfalso
                have := hids.2 x hx1
                omega
              · have hxmk : x = mkMessage s.nextMessageId cid sender content t := by
                  simpa using hx2
                subst hxmk
                rw [if_pos (show ((mkMessage s.nextMessageId cid sender content t).id ==
                    (sendPhase1 s cid sender content t).2.id) = true from
                  beq_self_eq_true (mkMessage s.nextMessageId cid sender content t).id)]
                rfl
            · show mid < (s.nextMessageId + 1)
              omega
            · rintro ⟨_, hlt⟩
              omega
          · have hzero : cntDeliveredNotif
                (Output.messageNewDirect sock updated "delivered" ::
                  (match mapGet (sendPhase1 s cid sender content t).1.connectedUsers
                    (otherParticipant c (sendPhase1 s cid sender content t).2.senderId) with
                   | some os => [Output.messageNewRoom os updated "delivered"]
                   | none => [])) mid = 0 := by
              unfold cntDeliveredNotif at hroom ⊢
              rw [List.filter_cons_of_neg (by
                show ¬ isDeliveredNotifFor _ _ = true
                simp [isDeliveredNotifFor, hu])]
              exact hroom
            exact c3_pack_zero hzero
        · exact c3_pack_zero rfl
      · have hz : cntDeliveredNotif
            [Output.messageNewDirect sock (sendPhase1 s cid sender content t).2 "sent"]
            mid = 0 := by
          refine cntDeliveredNotif_eq_zero _ _ ?_
          intro o ho
          rw [List.mem_singleton.1 ho]
          show ((sendPhase1 s cid sender content t).2.id == mid && ("sent" == "delivered"))
            = false
          have hsd : (("sent" : String) == "delivered") = false := by decide
          rw [hsd, Bool.and_false]
        exact c3_pack_zero hz
  · exact c3_pack_zero rfl

theorem c3_event (s : ServerState) (e : Event) (hids : idsOk s) (mid : Nat) :
    cntDeliveredNotif (step s e).2 mid ≤ 1 ∧
    (1 ≤ cntDeliveredNotif (step s e).2 mid →
      allDeliveredById (step s e).1 mid ∧ mid < (step s e).1.nextMessageId ∧
      ¬ (allDeliveredById s mid ∧ mid < s.nextMessageId)) := by
  cases e with
  | connect sock =>
    have hz : cntDeliveredNotif (step s (Event.connect sock)).2 mid = 0 := by
      show cntDeliveredNotif (handleConnect s sock).2 mid = 0
      unfold handleConnect
      split <;> rfl
    exact c3_pack_zero hz
  | heartbeat sock t =>
    have hz : cntDeliveredNotif (step s (Event.heartbeat sock t)).2 mid = 0 := by
      show cntDeliveredNotif (handleHeartbeat s sock t).2 mid = 0
      unfold handleHeartbeat
      split <;> rfl
    exact c3_pack_zero hz
  | typingStart sock uid cid t =>
    have hz : cntDeliveredNotif (step s (Event.typingStart sock uid cid t)).2 mid = 0 := by
      refine cntDeliveredNotif_eq_zero _ _ ?_
      intro o ho
      have ho2 : o ∈ Output.typingRoom cid uid true ::
          emitTypingStatus { s with userTypingStatus := mapSet s.userTypingStatus uid (cid, t) }
            uid cid true := ho
      rcases List.mem_cons.1 ho2 with h | h
      · rw [h]; rfl
      · obtain ⟨os, rfl⟩ := emitTypingList_shape _ _ _ _ _ o h
        rfl
    exact c3_pack_zero hz
  | typingStop sock uid cid =>
    have hz : cntDeliveredNotif (step s (Event.typingStop sock uid cid)).2 mid = 0 := by
      refine cntDeliveredNotif_eq_zero _ _ ?_
      intro o ho
      have ho2 : o ∈ Output.typingRoom cid uid false ::
          emitTypingStatus { s with userTypingStatus := mapDelete s.userTypingStatus uid }
            uid cid false := ho
      rcases List.mem_cons.1 ho2 with h | h
      · rw [h]; rfl
      · obtain ⟨os, rfl⟩ := emitTypingList_shape _ _ _ _ _ o h
        rfl
    exact c3_pack_zero hz
  | messageRead sock cid reader t =>
    have hz : cntDeliveredNotif (step s (Event.messageRead sock cid reader t)).2 mid = 0 := by
      refine cntDeliveredNotif_eq_zero _ _ ?_
      intro o ho
      revert ho
      show o ∈ (handleMessageRead s sock cid reader t).2 → _
      unfold handleMessageRead
      intro ho
      rcases List.mem_append.1 ho with h | h
      · revert h
        split
        · intro h; exact absurd h (List.not_mem_nil o)
        · split
          · split
            · intro h
              rw [List.mem_singleton.1 h]
              rfl
            · intro h; exact absurd h (List.not_mem_nil o)
          · intro h; exact absurd h (List.not_mem_nil o)
      · rw [List.mem_singleton.1 h]
        rfl
    exact c3_pack_zero hz
  | conversationOpened sock cid uid =>
    have hz : cntDeliveredNotif (step s (Event.conversationOpened sock cid uid)).2 mid = 0 := rfl
    exact c3_pack_zero hz
  | disconnect sock t =>
    have hz : cntDeliveredNotif (step s (Event.disconnect sock t)).2 mid = 0 := by
      refine cntDeliveredNotif_eq_zero _ _ ?_
      intro o ho
      revert ho
      show o ∈ (handleDisconnect s sock t).2 → _
      unfold handleDisconnect
      dsimp only
      split
      · intro ho; exact absurd ho (List.not_mem_nil o)
      · split
        · intro ho
          rcases List.mem_append.1 ho with h | h
          · obtain ⟨os, rfl⟩ := emitTypingList_shape _ _ _ _ _ o h
            rfl
          · rw [List.mem_singleton.1 h]
            rfl
        · intro ho
          rw [List.mem_singleton.1 ho]
          rfl
    exact c3_pack_zero hz
  | sweep t =>
    have hz : cntDeliveredNotif (step s (Event.sweep t)).2 mid = 0 := by
      refine cntDeliveredNotif_eq_zero _ _ ?_
      intro o ho
      obtain ⟨u, rfl⟩ := evictRun_outputs t _ s o ho
      rfl
    exact c3_pack_zero hz
  | authenticate sock uid t =>
    have hcf := authCleanup_fields s sock uid
    have hs2m : (authRegister (authCleanup s sock uid).1 sock uid t).messages = s.messages :=
      hcf.1
    have hnd2 : ((authRegister (authCleanup s sock uid).1 sock uid t).messages.map
        Message.id).Nodup := by
      rw [hs2m]; exact hids.1
    have hrp := c3_replay_part (authRegister (authCleanup s sock uid).1 sock uid t) uid t mid hnd2
    have h2 : (step s (Event.authenticate sock uid t)).2 =
        (authCleanup s sock uid).2
          ++ (deliverPendingMessages (authRegister (authCleanup s sock uid).1 sock uid t) uid t).2
          ++ sendUpdatedConversationData
              (deliverPendingMessages (authRegister (authCleanup s sock uid).1 sock uid t) uid t).1
              uid
          ++ [Output.userStatusChange uid true, Output.authenticated sock] := by
      show (handleAuthenticate s sock uid t).2 = _
      rw [handleAuthenticate_eq]
    have hcl0 : cntDeliveredNotif (authCleanup s sock uid).2 mid = 0 := by
      rcases authCleanup_outputs s sock uid with h | ⟨os, h⟩ <;> rw [h]
      · rfl
      · exact cntDeliveredNotif_eq_zero _ _
          (fun o ho => by rw [List.mem_singleton.1 ho]; rfl)
    have hsu0 : cntDeliveredNotif (sendUpdatedConversationData
        (deliverPendingMessages (authRegister (authCleanup s sock uid).1 sock uid t) uid t).1
        uid) mid = 0 := by
      rcases sendUpdated_outputs (deliverPendingMessages
          (authRegister (authCleanup s sock uid).1 sock uid t) uid t).1 uid with h | h <;> rw [h]
      · rfl
      · exact cntDeliveredNotif_eq_zero _ _
          (fun o ho => by rw [List.mem_singleton.1 ho]; rfl)
    have hcnt : cntDeliveredNotif (step s (Event.authenticate sock uid t)).2 mid =
        cntDeliveredNotif (deliverPendingMessages
          (authRegister (authCleanup s sock uid).1 sock uid t) uid t).2 mid := by
      rw [h2, cnt_append_delivered, cnt_append_delivered, cnt_append_delivered, hcl0, hsu0]
      have htl : cntDeliveredNotif
          [Output.userStatusChange uid true, Output.authenticated sock] mid = 0 := rfl
      rw [htl]
      omega
    rw [hcnt]
    refine ⟨hrp.1, ?_⟩
    intro hge
    obtain ⟨m, hm, hmid, hundeliv⟩ := hrp.2.1 hge
    rw [hs2m] at hm
    refine ⟨hrp.2.2 hge, ?_, ?_⟩
    · show mid < (deliverPendingMessages
        (authRegister (authCleanup s sock uid).1 sock uid t) uid t).1.nextMessageId
      rw [(deliverPending_fields _ uid t).1]
      show mid < (authCleanup s sock uid).1.nextMessageId
      rw [hcf.2.1, ← hmid]
      exact hids.2 m hm
    · rintro ⟨hall, _⟩
      have := hall m hm hmid
      rw [hundeliv] at this
      exact Bool.false_ne_true this
  | appStateChange sock st t =>
    exact c3_handle_appState s sock st t hids mid
  | messageSend sock cid sender content t =>
    exact c3_handle_send s sock cid sender content t hids mid

theorem c3_run (evts : List Event) : ∀ (s : ServerState) (outs : List Output),
    C3Inv s outs → C3Inv (run s evts).1 (outs ++ (run s evts).2) := by
  induction evts with
  | nil =>
    intro s outs h
    show C3Inv s (outs ++ [])
    rw [List.append_nil]
    exact h
  | cons e rest ih =>
    intro s outs h
    have hstep : C3Inv (step s e).1 (outs ++ (step s e).2) := by
      obtain ⟨hids, hc⟩ := h
      refine ⟨stepShape_idsOk _ _ (step_shape s e) hids, ?_⟩
      intro mid
      obtain ⟨he1, he2⟩ := c3_event s e hids mid
      obtain ⟨hc1, hc2⟩ := hc mid
      rw [cnt_append_delivered]
      by_cases hge : 1 ≤ cntDeliveredNotif (step s e).2 mid
      · obtain ⟨ha, hb, hnc⟩ := he2 hge
        have hz : cntDeliveredNotif outs mid = 0 := by
          by_contra hnz
          exact hnc (hc2 (by omega))
        constructor
        · omega
        · intro _
          exact ⟨ha, hb⟩
      · have hz : cntDeliveredNotif (step s e).2 mid = 0 := by omega
        rw [hz]
        constructor
        · omega
        · intro h1
          have h2 := hc2 (by omega)
          exact ⟨stepShape_allDelivered _ _ (step_shape s e) mid h2.2 h2.1,
                 Nat.lt_of_lt_of_le h2.2 (stepShape_nextId_le _ _ (step_shape s e))⟩
    have hrest := ih (step s e).1 (outs ++ (step s e).2) hstep
    rw [List.append_assoc] at hrest
    exact hrest

theorem run_append_fst (l1 : List Event) : ∀ (s : ServerState) (l2 : List Event),
    (run s (l1 ++ l2)).1 = (run (run s l1).1 l2).1 := by
  induction l1 with
  | nil =>
    intro s l2
    rfl
  | cons e rest ih =>
    intro s l2
    exact ih (step s e).1 l2

theorem initState_inv (users : List UserRow) (convs : List Conversation) :
    C3Inv (initState users convs) [] := by
  refine ⟨⟨List.nodup_nil, ?_⟩, ?_⟩
  · intro m hm
    exact absurd hm (List.not_mem_nil m)
  · intro mid
    exact ⟨Nat.zero_le 1, fun h => absurd (show (1 : Nat) ≤ 0 from h) (by omega)⟩

/-- C3 (amended): under handler-atomic execution (each socket handler runs
to completion before the next event), every message transitions to delivered
at most once (once all rows with its id are delivered they stay delivered),
and the original sender receives at most one delivered notification — a
message:delivered event or an inline sender-directed message:new with
deliveryStatus delivered — per message id, over any event trace from server
start.  The claim as stated, over arbitrary await-point interleavings, is
false: see the counterexample, where the unguarded send-time UPDATE runs
after a replay already delivered the message, writing delivered_at twice and
notifying the sender twice. -/
theorem c3_atomic_once :
    (∀ (users : List UserRow) (convs : List Conversation) (evts : List Event) (mid : Nat),
      cntDeliveredNotif (run (initState users convs) evts).2 mid ≤ 1) ∧
    (∀ (users : List UserRow) (convs : List Conversation) (evts1 evts2 : List Event)
      (mid : Nat),
      (∃ m ∈ (run (initState users convs) evts1).1.messages, m.id = mid) →
      allDeliveredById (run (initState users convs) evts1).1 mid →
      allDeliveredById (run (initState users convs) (evts1 ++ evts2)).1 mid) := by
  constructor
  · intro users convs evts mid
    have h := c3_run evts (initState users convs) [] (initState_inv users convs)
    have h2 := (h.2 mid).1
    simpa using h2
  · intro users convs e1 e2 mid hex hall
    have hids : idsOk (run (initState users convs) e1).1 :=
      (c3_run e1 (initState users convs) [] (initState_inv users convs)).1
    obtain ⟨m, hm, hmid⟩ := hex
    have hlt : mid < (run (initState users convs) e1).1.nextMessageId := by
      rw [← hmid]
      exact hids.2 m hm
    have hpres : ∀ (l : List Event) (s : ServerState), mid < s.nextMessageId →
        allDeliveredById s mid → allDeliveredById (run s l).1 mid := by
      intro l
      induction l with
      | nil =>
        intro s _ h
        exact h
      | cons e rest ihp =>
        intro s hlt2 hall2
        exact ihp (step s e).1
          (Nat.lt_of_lt_of_le hlt2 (stepShape_nextId_le _ _ (step_shape s e)))
          (stepShape_allDelivered _ _ (step_shape s e) mid hlt2 hall2)
    rw [run_append_fst]
    exact hpres e2 (run (initState users convs) e1).1 hlt hall

/-- Witness for c3_atomic_once: a trace where the message is delivered at
send time; the count stays one and delivery persists across a later read. -/
theorem c3_atomic_once_witness :
    cntDeliveredNotif (run (initState usersABC convsAB)
      [Event.connect 100, Event.authenticate 100 1 0, Event.connect 200,
       Event.authenticate 200 2 0, Event.messageSend 100 10 1 "hi" 5]).2 1 ≤ 1 ∧
    ((∃ m ∈ (run (initState usersABC convsAB)
        [Event.connect 100, Event.authenticate 100 1 0, Event.connect 200,
         Event.authenticate 200 2 0, Event.messageSend 100 10 1 "hi" 5]).1.messages,
        m.id = 1) ∧
     allDeliveredById (run (initState usersABC convsAB)
        [Event.connect 100, Event.authenticate 100 1 0, Event.connect 200,
         Event.authenticate 200 2 0, Event.messageSend 100 10 1 "hi" 5]).1 1) ∧
    allDeliveredById (run (initState usersABC convsAB)
      ([Event.connect 100, Event.authenticate 100 1 0, Event.connect 200,
        Event.authenticate 200 2 0, Event.messageSend 100 10 1 "hi" 5] ++
       [Event.messageRead 300 10 2 9])).1 1 :=
  ⟨c3_atomic_once.1 usersABC convsAB
      [Event.connect 100, Event.authenticate 100 1 0, Event.connect 200,
       Event.authenticate 200 2 0, Event.messageSend 100 10 1 "hi" 5] 1,
   ⟨⟨markDelivered 5 (mkMessage 1 10 1 "hi" 5), by decide, by decide⟩,
    by unfold allDeliveredById; decide⟩,
   c3_atomic_once.2 usersABC convsAB
      [Event.connect 100, Event.authenticate 100 1 0, Event.connect 200,
       Event.authenticate 200 2 0, Event.messageSend 100 10 1 "hi" 5]
      [Event.messageRead 300 10 2 9] 1
      ⟨markDelivered 5 (mkMessage 1 10 1 "hi" 5), by decide, by decide⟩
      (by unfold allDeliveredById; decide)⟩

/-! C5: single connection per user on authenticate. -/

theorem mapGet_mem {α : Type} {m : List (Nat × α)} {k : Nat} {v : α}
    (h : mapGet m k = some v) : (k, v) ∈ m := by
  unfold mapGet at h
  cases hf : m.find? (fun p => p.1 == k) with
  | none =>
    rw [hf] at h
    exact absurd h (by simp)
  | some p =>
    rw [hf] at h
    have hp : p.1 = k := by
      have hp0 := List.find?_some hf
      simpa using hp0
    have hm := List.mem_of_find?_eq_some hf
    have hv : p.2 = v := by simpa using h
    obtain ⟨p1, p2⟩ := p
    simp only at hp hv
    rw [← hp, ← hv]
    exact hm

theorem authCleanup_userSockets (s : ServerState) (sock uid : Nat) :
    (authCleanup s sock uid).1.userSockets = s.userSockets ∨
    ∃ old, mapGet s.connectedUsers uid = some old ∧ old ≠ sock ∧
      (authCleanup s sock uid).1.userSockets = mapDelete s.userSockets old := by
  unfold authCleanup
  cases h : mapGet s.connectedUsers uid with
  | none => exact Or.inl rfl
  | some old =>
    by_cases hne : (old != sock) = true
    · refine Or.inr ⟨old, rfl, bne_iff_ne.1 hne, ?_⟩
      simp only [hne, if_true]
    · left
      simp only [hne, if_false]
      rfl

theorem authCleanup_force (s : ServerState) (sock uid old : Nat)
    (h : mapGet s.connectedUsers uid = some old) (hne : old ≠ sock)
    (hlive : old ∈ s.liveSockets) :
    (authCleanup s sock uid).2 = [Output.forceDisconnect old] := by
  unfold authCleanup
  rw [h]
  dsimp only
  rw [if_pos (bne_iff_ne.2 hne)]
  dsimp only
  rw [if_pos (show s.liveSockets.contains old = true from List.elem_eq_true_of_mem hlive)]

/-- C5: after every successful authenticate of user uid on socket sock, the
registry maps hold exactly one connection for uid — connectedUsers maps uid
to sock and the only reverse entry with value uid is sock — registry
well-formedness is preserved, and any previously registered different socket
for uid has been removed from the reverse map and, when still open, was
forcibly closed. -/
theorem c5_single_connection (s : ServerState) (sock uid t : Nat) (hwf : wfRegistry s) :
    mapGet (step s (Event.authenticate sock uid t)).1.connectedUsers uid = some sock ∧
    (step s (Event.authenticate sock uid t)).1.userSockets.filter
      (fun p => p.2 == uid) = [(sock, uid)] ∧
    wfRegistry (step s (Event.authenticate sock uid t)).1 ∧
    (∀ old, mapGet s.connectedUsers uid = some old → old ≠ sock →
      mapGet (step s (Event.authenticate sock uid t)).1.userSockets old = none ∧
      (old ∈ s.liveSockets → Output.forceDisconnect old ∈
        (step s (Event.authenticate sock uid t)).2)) := by
  have hcf := authCleanup_fields s sock uid
  have hcu : (step s (Event.authenticate sock uid t)).1.connectedUsers =
      mapSet s.connectedUsers uid sock := by
    show (handleAuthenticate s sock uid t).1.connectedUsers = _
    rw [handleAuthenticate_eq]
    show mapSet (authCleanup s sock uid).1.connectedUsers uid sock = _
    rw [hcf.2.2.2.1]
  have hus : (step s (Event.authenticate sock uid t)).1.userSockets =
      mapSet (authCleanup s sock uid).1.userSockets sock uid := by
    show (handleAuthenticate s sock uid t).1.userSockets = _
    rw [handleAuthenticate_eq]
    rfl
  have hbase : ∀ p, p ∈ (authCleanup s sock uid).1.userSockets → p ∈ s.userSockets := by
    intro p hp
    rcases authCleanup_userSockets s sock uid with h | ⟨old, _, _, h⟩
    · rw [h] at hp
      exact hp
    · rw [h] at hp
      exact (List.mem_filter.1 hp).1
  have hval : ∀ p, p ∈ (authCleanup s sock uid).1.userSockets → p.1 ≠ sock → p.2 ≠ uid := by
    intro p hp hpk hpv
    have hps := hbase p hp
    have hforward := hwf.2 p hps
    rw [hpv] at hforward
    rcases authCleanup_userSockets s sock uid with h | ⟨old, hold, holdne, h⟩
    · -- no cleanup happened: either connectedUsers had none, or old = sock
      rcases hcase : mapGet s.connectedUsers uid with _ | old2
      · rw [hcase] at hforward
        exact Option.noConfusion hforward
      · -- authCleanup left userSockets untouched, so old2 = sock
        have : old2 = p.1 := by
          rw [hcase] at hforward
          exact Option.some.inj hforward
        -- from the cleanup equation being the identity, old2 != sock is false
        revert h
        unfold authCleanup
        rw [hcase]
        by_cases hne2 : (old2 != sock) = true
        · simp only [hne2, if_true]
          intro h
          -- userSockets with old2 deleted equals itself, yet p survives with key old2
          have : p ∈ mapDelete s.userSockets old2 := by
            rw [h]
            exact hps
          have hk := (List.mem_filter.1 this).2
          rw [bne_iff_ne] at hk
          rw [hcase] at hforward
          have : p.1 = old2 := by
            have := hforward
            simpa using this.symm
          exact hk (by rw [this])
        · intro _
          have hold2 : old2 = sock := by
            by_contra hcontra
            exact hne2 (bne_iff_ne.2 hcontra)
          rw [hcase] at hforward
          have : p.1 = old2 := by simpa using hforward.symm
          exact hpk (by rw [this, hold2])
    · rw [hold] at hforward
      have hp1 : p.1 = old := by simpa using hforward.symm
      rw [h] at hp
      have hk := (List.mem_filter.1 hp).2
      rw [bne_iff_ne] at hk
      exact hk hp1
  have hfilter : (step s (Event.authenticate sock uid t)).1.userSockets.filter
      (fun p => p.2 == uid) = [(sock, uid)] := by
    rw [hus]
    unfold mapSet
    rw [List.filter_cons_of_pos (by simp)]
    rw [List.filter_eq_nil.2]
    intro p hp
    have hp2 := List.mem_filter.1 hp
    have hk : p.1 ≠ sock := by
      have := hp2.2
      rwa [bne_iff_ne] at this
    have := hval p hp2.1 hk
    simp [this]
  refine ⟨by rw [hcu]; exact mapGet_set_self _ _ _, hfilter, ?_, ?_⟩
  · constructor
    · rw [hus]
      unfold mapSet
      rw [List.map_cons]
      rw [List.nodup_cons]
      constructor
      · intro hmem
        rcases List.mem_map.1 hmem with ⟨p, hp, hpk⟩
        have := (List.mem_filter.1 hp).2
        rw [bne_iff_ne] at this
        exact this hpk
      · have hnd : ((authCleanup s sock uid).1.userSockets.map Prod.fst).Nodup := by
          rcases authCleanup_userSockets s sock uid with h | ⟨old, _, _, h⟩ <;> rw [h]
          · exact hwf.1
          · exact List.Nodup.sublist (List.Sublist.map _ (List.filter_sublist _)) hwf.1
        exact List.Nodup.sublist
          (List.Sublist.map _ (List.filter_sublist _)) hnd
    · intro p hp
      rw [hus] at hp
      rcases List.mem_cons.1 hp with rfl | hp2
      · rw [hcu]
        exact mapGet_set_self _ _ _
      · have hpb := List.mem_filter.1 hp2
        have hk : p.1 ≠ sock := by
          have := hpb.2
          rwa [bne_iff_ne] at this
        have hv2 : p.2 ≠ uid := hval p hpb.1 hk
        rw [hcu, mapGet_set_ne _ _ _ _ hv2]
        exact hwf.2 p (hbase p hpb.1)
  · intro old hold holdne
    have hcl : (authCleanup s sock uid).1.userSockets = mapDelete s.userSockets old := by
      unfold authCleanup
      rw [hold]
      dsimp only
      rw [if_pos (bne_iff_ne.2 holdne)]
    constructor
    · rw [hus, hcl, mapGet_set_ne _ _ _ _ holdne]
      exact mapGet_delete_self _ _
    · intro hlive
      have hforce := authCleanup_force s sock uid old hold holdne hlive
      show Output.forceDisconnect old ∈ (handleAuthenticate s sock uid t).2
      rw [handleAuthenticate_eq]
      refine List.mem_append.2 (Or.inl (List.mem_append.2 (Or.inl
        (List.mem_append.2 (Or.inl ?_)))))
      rw [hforce]
      exact List.mem_singleton.2 rfl

/-- Witness for c5_single_connection: user 1 re-authenticates on socket 150
while socket 100 is open; the registry ends with exactly socket 150 and the
old socket is removed and force-closed. -/
theorem c5_single_connection_witness :
    (wfRegistry c5state ∧ mapGet c5state.connectedUsers 1 = some 100 ∧
      100 ∈ c5state.liveSockets) ∧
    mapGet (step c5state (Event.authenticate 150 1 5)).1.connectedUsers 1 = some 150 ∧
    (step c5state (Event.authenticate 150 1 5)).1.userSockets.filter
      (fun p => p.2 == 1) = [(150, 1)] ∧
    mapGet (step c5state (Event.authenticate 150 1 5)).1.userSockets 100 = none ∧
    Output.forceDisconnect 100 ∈ (step c5state (Event.authenticate 150 1 5)).2 := by
  have h := c5_single_connection c5state 150 1 5 ⟨by decide, by decide⟩
  have h4 := h.2.2.2 100 (by decide) (by decide)
  exact ⟨⟨⟨by decide, by decide⟩, by decide, by decide⟩, h.1, h.2.1, h4.1, h4.2 (by decide)⟩

/-! C6: typing cleanup — voluntary disconnect versus heartbeat sweep. -/

theorem cuInj_delete (cu : List (Nat × Nat)) (k : Nat) (h : cuInj cu) :
    cuInj (mapDelete cu k) := by
  intro p hp q hq hpq
  exact h p (List.mem_filter.1 hp).1 q (List.mem_filter.1 hq).1 hpq

theorem cuInj_mapGet (cu : List (Nat × Nat)) (h : cuInj cu) (a b x : Nat)
    (ha : mapGet cu a = some x) (hb : mapGet cu b = some x) : a = b :=
  h (a, x) (mapGet_mem ha) (b, x) (mapGet_mem hb) rfl

theorem emitTypingList_cons (cu : List (Nat × Nat)) (w : Nat) (rest : List Nat)
    (uid cid : Nat) (b : Bool) :
    emitTypingList cu (w :: rest) uid cid b =
      (match mapGet cu w with
       | some os => [Output.userTypingStatus os uid cid b]
       | none => []) ++ emitTypingList cu rest uid cid b := by
  unfold emitTypingList
  rw [List.filterMap_cons]
  cases h : mapGet cu w <;> simp [h]

theorem cntTypingStop_append (o1 o2 : List Output) (vs uid : Nat) :
    cntTypingStop (o1 ++ o2) vs uid = cntTypingStop o1 vs uid + cntTypingStop o2 vs uid := by
  unfold cntTypingStop
  rw [List.filter_append, List.length_append]

theorem cntTypingStop_emit (cu : List (Nat × Nat)) (uid cid v vs : Nat)
    (hinj : cuInj cu) (hv : mapGet cu v = some vs) :
    ∀ targets : List Nat,
      cntTypingStop (emitTypingList cu targets uid cid false) vs uid = targets.count v := by
  intro targets
  induction targets with
  | nil => rfl
  | cons w rest ih =>
    rw [emitTypingList_cons, cntTypingStop_append, ih]
    cases hw : mapGet cu w with
    | none =>
      have hwv : w ≠ v := by
        intro he
        rw [he, hv] at hw
        exact Option.noConfusion hw
      have hz : cntTypingStop ([] : List Output) vs uid = 0 := rfl
      rw [hz, List.count_cons]
      simp [hwv]
    | some os =>
      by_cases hwv : w = v
      · subst hwv
        have hos : os = vs := by
          rw [hw] at hv
          exact Option.some.inj hv
        subst hos
        have h1 : cntTypingStop [Output.userTypingStatus os uid cid false] os uid = 1 := by
          unfold cntTypingStop
          simp [isTypingStopFor]
        rw [h1, List.count_cons]
        simp only [beq_self_eq_true, if_true]
        omega
      · have hos : os ≠ vs := by
          intro he
          rw [he] at hw
          exact hwv (cuInj_mapGet cu hinj w v vs hw hv)
        have h0 : cntTypingStop [Output.userTypingStatus os uid cid false] vs uid = 0 := by
          unfold cntTypingStop
          simp [isTypingStopFor, hos]
        rw [h0, List.count_cons]
        simp [hwv]

theorem pairIs_samePair (u v : Nat) (c c2 : Conversation)
    (h1 : pairIs u v c) (h2 : pairIs u v c2) : samePair c c2 := by
  rcases h1 with ⟨a1, b1⟩ | ⟨a1, b1⟩ <;> rcases h2 with ⟨a2, b2⟩ | ⟨a2, b2⟩
  · exact Or.inl ⟨a1.trans a2.symm, b1.trans b2.symm⟩
  · exact Or.inr ⟨a1.trans b2.symm, b1.trans a2.symm⟩
  · exact Or.inr ⟨a1.trans b2.symm, b1.trans a2.symm⟩
  · exact Or.inl ⟨a1.trans a2.symm, b1.trans b2.symm⟩

theorem targetOf_some_iff (u v : Nat) (c : Conversation) (hne : v ≠ u) :
    targetOf u c = some v ↔ pairIs u v c := by
  unfold targetOf pairIs
  by_cases h1 : c.user1 = u
  · rw [if_pos (beq_iff_eq.2 h1)]
    constructor
    · intro h
      exact Or.inl ⟨h1, Option.some.inj h⟩
    · intro h
      rcases h with ⟨_, hb⟩ | ⟨ha, _⟩
      · rw [hb]
      · exact absurd (ha.symm.trans h1) hne
  · rw [if_neg (by simpa using h1)]
    by_cases h2 : c.user2 = u
    · rw [if_pos (beq_iff_eq.2 h2)]
      constructor
      · intro h
        exact Or.inr ⟨Option.some.inj h, h2⟩
      · intro h
        rcases h with ⟨ha, _⟩ | ⟨ha, _⟩
        · exact absurd ha h1
        · rw [ha]
    · rw [if_neg (by simpa using h2)]
      constructor
      · intro h
        exact Option.noConfusion h
      · intro h
        rcases h with ⟨ha, _⟩ | ⟨_, hb⟩
        · exact absurd ha h1
        · exact absurd hb h2

theorem countP_targetOf_le_one (u v : Nat) (hne : v ≠ u) :
    ∀ convs : List Conversation, ConvsOk convs →
      convs.countP (fun c => targetOf u c == some v) ≤ 1 := by
  intro convs
  induction convs with
  | nil =>
    intro _
    simp
  | cons c rest ih =>
    intro hok
    have hparts := List.pairwise_cons.1 hok
    rw [List.countP_cons]
    by_cases hc : targetOf u c = some v
    · have hrest : rest.countP (fun c2 => targetOf u c2 == some v) = 0 := by
        rw [List.countP_eq_zero]
        intro c2 hc2 hq
        have h2 : targetOf u c2 = some v := by simpa using hq
        have hp1 := (targetOf_some_iff u v c hne).1 hc
        have hp2 := (targetOf_some_iff u v c2 hne).1 h2
        exact hparts.1 c2 hc2 (pairIs_samePair u v c c2 hp1 hp2)
      rw [hrest]
      simp [hc]
    · have := ih hparts.2
      simp only [beq_iff_eq, hc, if_false]
      omega

theorem countP_targetOf_eq_one (u v : Nat) (hne : v ≠ u)
    (convs : List Conversation) (hok : ConvsOk convs)
    (hex : ∃ c ∈ convs, pairIs u v c) :
    convs.countP (fun c => targetOf u c == some v) = 1 := by
  obtain ⟨c, hc, hp⟩ := hex
  have hle := countP_targetOf_le_one u v hne convs hok
  have hq : (fun c => targetOf u c == some v) c = true := by
    simp [(targetOf_some_iff u v c hne).2 hp]
  have hpos : 0 < convs.countP (fun c => targetOf u c == some v) :=
    List.countP_pos_iff.2 ⟨c, hc, hq⟩
  omega

theorem handleDisconnect_typing (s : ServerState) (sock t uid c0 t0 : Nat)
    (hsk : mapGet s.userSockets sock = some uid)
    (hty : mapGet s.userTypingStatus uid = some (c0, t0)) :
    (handleDisconnect s sock t).1.userTypingStatus = mapDelete s.userTypingStatus uid ∧
    (handleDisconnect s sock t).1.connectedUsers = mapDelete s.connectedUsers uid ∧
    (handleDisconnect s sock t).1.conversations = s.conversations ∧
    (handleDisconnect s sock t).2 =
      emitTypingStatus (handleDisconnect s sock t).1 uid c0 false ++
        [Output.userStatusChange uid false] := by
  unfold handleDisconnect
  dsimp only
  rw [hsk]
  dsimp only
  rw [hty]
  exact ⟨rfl, rfl, rfl, rfl⟩

/-- C6: typing cleanup.  On a voluntary disconnect of a socket registered to a
typing user, the TypingState entry is removed and (given the maintained
registry/conversation invariants) every connected user sharing a conversation
with the typer receives exactly one isTyping=false event; on a heartbeat-sweep
eviction, however, the TypingState table is untouched and no isTyping=false
event is emitted to anyone, so the spec's claim fails for the timeout path. -/
theorem c6_typing_cleanup (s : ServerState) (sock t uid c0 t0 : Nat)
    (hsk : mapGet s.userSockets sock = some uid)
    (hty : mapGet s.userTypingStatus uid = some (c0, t0))
    (hok : ConvsOk s.conversations)
    (hinj : cuInj s.connectedUsers) :
    (mapGet (step s (Event.disconnect sock t)).1.userTypingStatus uid = none ∧
     ∀ v vs, v ≠ uid → sharesConv s uid v →
       mapGet s.connectedUsers v = some vs →
       cntTypingStop (step s (Event.disconnect sock t)).2 vs uid = 1) ∧
    (∀ t2, (step s (Event.sweep t2)).1.userTypingStatus = s.userTypingStatus ∧
      ∀ vs u, cntTypingStop (step s (Event.sweep t2)).2 vs u = 0) := by
  have hd := handleDisconnect_typing s sock t uid c0 t0 hsk hty
  refine ⟨⟨?_, ?_⟩, ?_⟩
  · show mapGet (handleDisconnect s sock t).1.userTypingStatus uid = none
    rw [hd.1]
    exact mapGet_delete_self _ _
  · intro v vs hvne hshare hcv
    show cntTypingStop (handleDisconnect s sock t).2 vs uid = 1
    rw [hd.2.2.2, cntTypingStop_append]
    have htail : cntTypingStop [Output.userStatusChange uid false] vs uid = 0 := by
      unfold cntTypingStop
      simp [isTypingStopFor]
    rw [htail]
    have hcv2 : mapGet (mapDelete s.connectedUsers uid) v = some vs := by
      rw [mapGet_delete_ne _ _ _ hvne]
      exact hcv
    have hmain : cntTypingStop
        (emitTypingStatus (handleDisconnect s sock t).1 uid c0 false) vs uid =
        (typingTargets (handleDisconnect s sock t).1 uid).count v := by
      unfold emitTypingStatus
      rw [show (handleDisconnect s sock t).1.connectedUsers =
        mapDelete s.connectedUsers uid from hd.2.1]
      exact cntTypingStop_emit (mapDelete s.connectedUsers uid) uid c0 v vs
        (cuInj_delete s.connectedUsers uid hinj) hcv2 _
    rw [hmain]
    unfold typingTargets
    rw [show (handleDisconnect s sock t).1.conversations = s.conversations from hd.2.2.1]
    rw [List.count_filterMap]
    exact countP_targetOf_eq_one uid v (by exact hvne) s.conversations hok hshare
  · intro t2
    constructor
    · show (handleSweep s t2).1.userTypingStatus = s.userTypingStatus
      exact (evictRun_state t2 _ s).2.1
    · intro vs u
      show cntTypingStop (handleSweep s t2).2 vs u = 0
      unfold cntTypingStop
      rw [List.filter_eq_nil_iff.2]
      · rfl
      · intro o ho
        obtain ⟨u2, rfl⟩ := evictRun_outputs t2 _ s o ho
        simp [isTypingStopFor]

/-- Witness for c6_typing_cleanup: in c6state user 1 (socket 100) is typing in
conversation 10 and user 2 is connected on socket 200; a voluntary disconnect
of socket 100 clears the entry and sends exactly one stop event to socket 200,
while a sweep leaves the entry and sends none. -/
theorem c6_typing_cleanup_witness :
    (mapGet c6state.userSockets 100 = some 1 ∧
     mapGet c6state.userTypingStatus 1 = some (10, 1) ∧
     ConvsOk c6state.conversations ∧
     cuInj c6state.connectedUsers ∧
     (2 : Nat) ≠ 1 ∧ sharesConv c6state 1 2 ∧
     mapGet c6state.connectedUsers 2 = some 200) ∧
    mapGet (step c6state (Event.disconnect 100 50)).1.userTypingStatus 1 = none ∧
    cntTypingStop (step c6state (Event.disconnect 100 50)).2 200 1 = 1 ∧
    (step c6state (Event.sweep 99999)).1.userTypingStatus = c6state.userTypingStatus ∧
    cntTypingStop (step c6state (Event.sweep 99999)).2 200 1 = 0 := by
  have hok : ConvsOk c6state.conversations := by
    unfold ConvsOk samePair
    decide
  have hinj : cuInj c6state.connectedUsers := by
    unfold cuInj
    decide
  have hshare : sharesConv c6state 1 2 := by
    unfold sharesConv pairIs
    decide
  have h := c6_typing_cleanup c6state 100 50 1 10 1 (by decide) (by decide) hok hinj
  exact ⟨⟨by decide, by decide, hok, hinj, by decide, hshare, by decide⟩,
    h.1.1, h.1.2 2 200 (by decide) hshare (by decide),
    (h.2 99999).1, (h.2 99999).2 200 1⟩

end ChatServer
